import Mathlib

/-!
Verification development for the whatnot-matcher repository
(`app/matcher.py`, `app/main.py`).

The Python code is shallowly embedded: a pandas cell is a `Value`
(string, machine integer, boolean, or a missing value — Python `None`
and pandas `NaN` are both embedded as `Value.null`), a DataFrame row is
an association list from column name to `Value`, and a DataFrame keeps
its column order in a separate list, as pandas does.  Machine integers
are embedded as `Int`/`Nat` (slot numbers in the program stay far below
any overflow boundary).  The float comparison `sku_ratio >= 0.8` in
`detect_mode` is embedded as the exact comparison `5 * valid ≥ 4 * total`
(`0.8 = 4/5`); the two agree on every table whose row count is below the
float-precision horizon (about `10^15` rows).
-/

namespace Whatnot

/-- A single cell of the order table.  `null` stands for Python `None`
and for pandas `NaN`/`NaT` alike. -/
inductive Value where
  | str (s : String)
  | int (n : Int)
  | bool (b : Bool)
  | null
deriving DecidableEq, Repr

/-- Python `str(v)` for the cell values that occur in the program.
`str` of a pandas missing cell (a float `NaN`) is the text `"nan"`. -/
def pyStr : Value → String
  | .str s => s
  | .int n => toString n
  | .bool b => if b then "True" else "False"
  | .null => "nan"

/-- Python truthiness `bool(v)` (a float `NaN` is truthy). -/
def pyTruthy : Value → Bool
  | .str s => s ≠ ""
  | .int n => n ≠ 0
  | .bool b => b
  | .null => true

/-- The guard `not sku or pd.isna(sku)` at matcher.py:51: a falsy value
(`None`, `""`, `0`, `False`) or a missing value.  `None` and `NaN` are
both `Value.null` here, and each of them passes this disjunction in
Python (`not None`, resp. `pd.isna(nan)`). -/
def isAbsentOrFalsy : Value → Bool
  | .str s => s == ""
  | .int n => n == 0
  | .bool b => !b
  | .null => true

/-- Python `str.strip()`: remove leading and trailing whitespace. -/
def pyStrip (s : String) : String :=
  String.mk (((s.toList.dropWhile Char.isWhitespace).reverse.dropWhile Char.isWhitespace).reverse)

/-- ASCII lower-casing of one character (the case arising in this
program; Python `str.lower()` restricted to ASCII input). -/
def lowerChar (c : Char) : Char :=
  if 65 ≤ c.toNat ∧ c.toNat ≤ 90 then Char.ofNat (c.toNat + 32) else c

/-- Python `str.lower()`. -/
def pyLower (s : String) : String :=
  String.mk (s.toList.map lowerChar)

/-- Digit list to number, most significant first. -/
def natOfDigits (l : List Char) : Nat :=
  l.foldl (fun n c => 10 * n + (c.toNat - 48)) 0

/-- The regex search `re.search(r'\d+', s)` at matcher.py:60: the first
(leftmost) maximal run of decimal digits of `s`, if any. -/
def firstRun : List Char → Option (List Char)
  | [] => none
  | c :: cs => if c.isDigit then some (c :: cs.takeWhile Char.isDigit) else firstRun cs

/-- matcher.py:34-64 `parse_sku_to_slot`. -/
def parse_sku_to_slot (sku : Value) : Option Nat :=
  if isAbsentOrFalsy sku then none
  else
    let sku_str := pyStrip (pyStr sku)
    if sku_str = "" then none
    else (firstRun sku_str.toList).map natOfDigits

/-- All maximal runs of decimal digits of a string, left to right.
Used only to state the specification side of the identifier parser. -/
def digitRuns (l : List Char) : List (List Char) :=
  match l with
  | [] => []
  | c :: cs =>
    if c.isDigit then
      (c :: cs.takeWhile Char.isDigit) :: digitRuns (cs.dropWhile Char.isDigit)
    else
      digitRuns cs
termination_by l.length
decreasing_by
  · exact Nat.lt_succ_of_le (List.IsSuffix.sublist (List.dropWhile_suffix Char.isDigit)).length_le
  · simp

/-- The identifier parser as the specification words it: the integer
value of the first (leftmost) maximal run of decimal digits in the
string form of the value, no result when the value is absent/null,
empty or whitespace-only after trimming, or has no digit. -/
def spec_parse_identifier (v : Value) : Option Nat :=
  match v with
  | .null => none
  | _ =>
    match digitRuns (pyStrip (pyStr v)).toList with
    | [] => none
    | run :: _ => some (natOfDigits run)

/-- Python substring test `needle in hay` on character lists. -/
def strInL (needle : List Char) : List Char → Bool
  | [] => needle.isEmpty
  | c :: cs => List.isPrefixOf needle (c :: cs) || strInL needle cs

/-- Python substring test `needle in hay` on strings. -/
def strIn (needle hay : String) : Bool :=
  strInL needle.toList hay.toList

/-- A DataFrame row: column name to cell value, in column order. -/
abbrev Row := List (String × Value)

/-- `row.get(c, d)` on a pandas Series: the cell under column `c`,
or the default `d` when the row has no such column. -/
def Row.getD : Row → String → Value → Value
  | [], _, d => d
  | (c₀, v) :: r, c, d => if c₀ = c then v else Row.getD r c d

/-- Writing cell `c` of a row (`df.at[idx, c] = v`, or one row's part of
`df[c] = v`): overwrite in place if the column exists, else append it as
the last column, as pandas does. -/
def Row.setCell : Row → String → Value → Row
  | [], c, v => [(c, v)]
  | (c₀, v₀) :: r, c, v => if c₀ = c then (c, v) :: r else (c₀, v₀) :: Row.setCell r c v

/-- A DataFrame: the column order plus the rows (each row an association
list whose keys follow `columns`).  The engine's callers build tables
whose rows are indexed `0, 1, 2, …` (the pandas RangeIndex produced by
`read_csv`), so row identity is positional. -/
structure DF where
  columns : List String
  rows : List Row
deriving DecidableEq, Repr

/-- Column assignment `df[c] = v` with a scalar `v`: every row's cell
under `c` becomes `v`; a new column name is appended at the end. -/
def DF.setColScalar (df : DF) (c : String) (v : Value) : DF :=
  { columns := if df.columns.contains c then df.columns else df.columns ++ [c],
    rows := df.rows.map fun r => r.setCell c v }

/-- matcher.py:67-88 `should_exclude_row`. -/
def should_exclude_row (row : Row) (exclude_keywords : List String) : Bool :=
  if exclude_keywords.isEmpty then false
  else
    let product_name := pyLower (pyStr (row.getD "product name" (Value.str "")))
    exclude_keywords.any fun keyword => strIn (pyLower keyword) product_name

/-- matcher.py:91-112 `should_include_row`. -/
def should_include_row (row : Row) (include_keywords : List String) : Bool :=
  if include_keywords.isEmpty then true
  else
    let product_name := pyLower (pyStr (row.getD "product name" (Value.str "")))
    include_keywords.any fun keyword => strIn (pyLower keyword) product_name

/-- Number of rows whose `sku` cell parses to a slot number
(the `valid_skus` count of matcher.py:129). -/
def skuValidCount (df : DF) : Nat :=
  (df.rows.filter fun r => (parse_sku_to_slot (r.getD "sku" Value.null)).isSome).length

/-- matcher.py:115-136 `detect_mode`.  The float test
`valid_skus / total_rows >= 0.8` is embedded exactly as
`5 * valid ≥ 4 * total`. -/
def detect_mode (df : DF) : String :=
  if !(df.columns.contains "sku") then "sequence"
  else
    let valid_skus := skuValidCount df
    let total_rows := df.rows.length
    if total_rows = 0 then "sequence"
    else if 5 * valid_skus ≥ 4 * total_rows then "sku" else "sequence"

/-- Model of `pd.to_datetime(value, errors="coerce")` as used at
matcher.py:231 on the `placed at` column: an ISO-style timestamp string
(such as `2024-01-03 10:00`) is mapped to the integer formed by its
digits, which orders timestamps of a uniform format chronologically;
anything without digits, or missing, becomes `NaT` (`Value.null`).  No
claim depends on the values of this external pandas function, only on a
sort key being computed and stored in the `_sort_key` column. -/
def to_datetime_coerce (v : Value) : Value :=
  match v with
  | .str s =>
    let ds := s.toList.filter Char.isDigit
    if ds.isEmpty then Value.null else Value.int (natOfDigits ds)
  | .int n => Value.int n
  | .bool _ => Value.null
  | .null => Value.null

/-- The sort key a row carries after `df["_sort_key"] = …`;
`none` stands for `NaT`. -/
def sortKeyOf (p : Nat × Row) : Option Int :=
  match p.2.getD "_sort_key" Value.null with
  | .int n => some n
  | _ => none

/-- Ascending comparison on sort keys, missing keys last
(`sort_values` default `na_position="last"`). -/
def keyLE (a b : Nat × Row) : Bool :=
  match sortKeyOf a, sortKeyOf b with
  | some x, some y => decide (x ≤ y)
  | some _, none => true
  | none, some _ => false
  | none, none => true

/-- Insert into a sorted list, before the first element not below `x`. -/
def insertByLE (le : Nat × Row → Nat × Row → Bool) (x : Nat × Row) :
    List (Nat × Row) → List (Nat × Row)
  | [] => [x]
  | y :: ys => if le x y then x :: y :: ys else y :: insertByLE le x ys

/-- `df.sort_values("_sort_key")`: a sort of the rows by `keyLE` (the
row order among equal keys is irrelevant to every claim below). -/
def sortRows (rows : List (Nat × Row)) : List (Nat × Row) :=
  rows.foldr (insertByLE keyLE) []

/-- Pair every row with its positional index (the pandas RangeIndex
`0, 1, 2, …` that `load_csv` gives the table; `df.iterrows()` yields
these indices and `df.at[idx, …]` addresses rows by them). -/
def indexRows (rows : List Row) : List (Nat × Row) :=
  (List.range rows.length).zip rows

/-- The statistics `match` accumulates while walking the rows
(matcher.py:185-188). -/
structure PassState where
  excluded_count : Nat := 0
  matched_count : Nat := 0
  needs_review_count : Nat := 0
  slot_usage : List (Int × List Nat) := []
deriving DecidableEq, Repr

/-- matcher.py:221-224 / 259-262: append `idx` to the slot's usage list,
creating the entry (in insertion order, as a Python dict) if absent. -/
def addUsage (u : List (Int × List Nat)) (slot : Int) (idx : Nat) :
    List (Int × List Nat) :=
  if (u.lookup slot).isSome then
    u.map fun p => if p.1 = slot then (p.1, p.2 ++ [idx]) else p
  else
    u ++ [(slot, [idx])]

/-- The SKU-mode loop of matcher.py:190-224: each row is excluded,
sent to manual review, or given the slot parsed from its `sku` cell. -/
def skuPass (ex inc : List String) :
    List (Nat × Row) → PassState → List (Nat × Row) × PassState
  | [], st => ([], st)
  | (idx, row) :: rest, st =>
    if should_exclude_row row ex then
      let res := skuPass ex inc rest { st with excluded_count := st.excluded_count + 1 }
      ((idx, row.setCell "match_method" (Value.str "excluded")) :: res.1, res.2)
    else if !(should_include_row row inc) then
      let res := skuPass ex inc rest { st with excluded_count := st.excluded_count + 1 }
      ((idx, row.setCell "match_method" (Value.str "excluded")) :: res.1, res.2)
    else
      match parse_sku_to_slot (row.getD "sku" Value.null) with
      | none =>
        let row₂ := ((row.setCell "match_method" (Value.str "manual_review")).setCell
          "needs_review" (Value.bool true)).setCell "review_reason" (Value.str "sku_missing_or_invalid")
        let res := skuPass ex inc rest { st with needs_review_count := st.needs_review_count + 1 }
        ((idx, row₂) :: res.1, res.2)
      | some n =>
        let row₂ := ((row.setCell "slot" (Value.int n)).setCell
          "matched_item_label" (Value.str ("Item #" ++ toString n))).setCell "match_method" (Value.str "sku")
        let res := skuPass ex inc rest
          { st with matched_count := st.matched_count + 1,
                    slot_usage := addUsage st.slot_usage (Int.ofNat n) idx }
        ((idx, row₂) :: res.1, res.2)

/-- The sequence-mode loop of matcher.py:237-264: excluded rows consume
no slot, every other row takes `current_slot` and the counter advances. -/
def seqPass (ex inc : List String) :
    List (Nat × Row) → Int → PassState → List (Nat × Row) × PassState
  | [], _, st => ([], st)
  | (idx, row) :: rest, current_slot, st =>
    if should_exclude_row row ex then
      let res := seqPass ex inc rest current_slot { st with excluded_count := st.excluded_count + 1 }
      ((idx, row.setCell "match_method" (Value.str "excluded")) :: res.1, res.2)
    else if !(should_include_row row inc) then
      let res := seqPass ex inc rest current_slot { st with excluded_count := st.excluded_count + 1 }
      ((idx, row.setCell "match_method" (Value.str "excluded")) :: res.1, res.2)
    else
      let row₂ := ((row.setCell "slot" (Value.int current_slot)).setCell
        "matched_item_label" (Value.str ("Item #" ++ toString current_slot))).setCell
        "match_method" (Value.str "sequence")
      let res := seqPass ex inc rest (current_slot + 1)
        { st with matched_count := st.matched_count + 1,
                  slot_usage := addUsage st.slot_usage current_slot idx }
      ((idx, row₂) :: res.1, res.2)

/-- matcher.py:272-277: flag one row of a duplicate-slot group. -/
def flagDupRow (row : Row) : Row :=
  let row := row.setCell "needs_review" (Value.bool true)
  let existing := row.getD "review_reason" (Value.str "")
  row.setCell "review_reason"
    (if pyTruthy existing then Value.str (pyStr existing ++ "; duplicate_slot")
     else Value.str "duplicate_slot")

/-- `df.at[idx, …] = …`: rewrite the row(s) carrying index `idx`. -/
def updateRowAt (rows : List (Nat × Row)) (idx : Nat) (f : Row → Row) :
    List (Nat × Row) :=
  rows.map fun p => if p.1 = idx then (p.1, f p.2) else p

/-- Read the row carrying index `idx`. -/
def getRowAt (rows : List (Nat × Row)) (idx : Nat) : Option Row :=
  (rows.find? fun p => p.1 == idx).map Prod.snd

/-- The inner loop of matcher.py:271-279: flag every index of one
duplicate group, counting the rows not already in manual review. -/
def flagIndices (rows : List (Nat × Row)) (nrc : Nat) :
    List Nat → List (Nat × Row) × Nat
  | [] => (rows, nrc)
  | idx :: idxs =>
    let rows' := updateRowAt rows idx flagDupRow
    let bump :=
      match getRowAt rows' idx with
      | some r => if r.getD "match_method" Value.null ≠ Value.str "manual_review" then 1 else 0
      | none => 0
    flagIndices rows' (nrc + bump) idxs

/-- The duplicate-detection pass of matcher.py:266-279, walking
`slot_usage` in insertion order. -/
def dupPass : List (Int × List Nat) → List (Nat × Row) → Nat → Nat →
    List (Nat × Row) × Nat × Nat
  | [], rows, dup, nrc => (rows, dup, nrc)
  | e :: rest, rows, dup, nrc =>
    if e.2.length > 1 then
      let fl := flagIndices rows nrc e.2
      dupPass rest fl.1 (dup + 1) fl.2
    else
      dupPass rest rows dup nrc

/-- The summary dict of matcher.py:282-292. -/
structure Summary where
  total_rows : Nat
  matched : Nat
  excluded : Nat
  needs_review : Nat
  duplicate_slots : Nat
  mode_used : String
  start_slot : Int
  exclude_keywords : List String
  include_keywords : List String
deriving DecidableEq, Repr

/-- matcher.py:176-181: `df = df.copy()` followed by the initialization
of the five annotation columns. -/
def prepDF (df : DF) : DF :=
  ((((df.setColScalar "slot" Value.null).setColScalar
    "matched_item_label" Value.null).setColScalar
    "match_method" Value.null).setColScalar
    "needs_review" (Value.bool false)).setColScalar
    "review_reason" (Value.str "")

/-- The strategy dispatch of matcher.py:190-264 on the prepared table:
`"sku"` runs the SKU loop; anything else runs the sequence branch
(mirroring the source's `else`), which first adds the `_sort_key` column
and sorts by it when a `placed at` column exists (matcher.py:228-235).
Returns the output column order together with the annotated rows and
the accumulated statistics. -/
def runStrategy (df₁ : DF) (mode : String) (start_slot : Int)
    (exclude_keywords include_keywords : List String) :
    List String × (List (Nat × Row) × PassState) :=
  if mode = "sku" then
    (df₁.columns, skuPass exclude_keywords include_keywords (indexRows df₁.rows) {})
  else
    if df₁.columns.contains "placed at" then
      let cols₂ := if df₁.columns.contains "_sort_key" then df₁.columns
                   else df₁.columns ++ ["_sort_key"]
      let irows := (indexRows df₁.rows).map fun p =>
        (p.1, p.2.setCell "_sort_key" (to_datetime_coerce (p.2.getD "placed at" Value.null)))
      (cols₂, seqPass exclude_keywords include_keywords (sortRows irows) start_slot {})
    else
      (df₁.columns, seqPass exclude_keywords include_keywords (indexRows df₁.rows) start_slot {})

/-- The body of `match` after validation (matcher.py:175-294): initialize
the five annotation columns on a fresh copy, run the strategy selected by
`mode`, detect duplicates, and build the summary. -/
def matchCore (df : DF) (mode : String) (start_slot : Int)
    (exclude_keywords include_keywords : List String) : DF × Summary :=
  let df₁ := prepDF df
  let total_rows := df₁.rows.length
  let strat := runStrategy df₁ mode start_slot exclude_keywords include_keywords
  let dup := dupPass strat.2.2.slot_usage strat.2.1 0 strat.2.2.needs_review_count
  ({ columns := strat.1, rows := dup.1.map Prod.snd },
   { total_rows := total_rows,
     matched := strat.2.2.matched_count,
     excluded := strat.2.2.excluded_count,
     needs_review := dup.2.2,
     duplicate_slots := dup.2.1,
     mode_used := mode,
     start_slot := start_slot,
     exclude_keywords := exclude_keywords,
     include_keywords := include_keywords })

/-- matcher.py:139-294 `match` (named `matchTable` here because `match`
is a reserved word in Lean).  An empty table and an unrecognized mode
are rejected before any row is touched; note that `start_slot` is not
validated here. -/
def matchTable (df : DF) (mode : String) (start_slot : Int)
    (exclude_keywords include_keywords : List String) :
    Except String (DF × Summary) :=
  if df.rows.isEmpty then Except.error "DataFrame is empty"
  else
    let exclude_keywords := exclude_keywords.map pyStrip
    let include_keywords := include_keywords.map pyStrip
    let mode := if mode == "auto" then detect_mode df else mode
    if mode = "sku" ∨ mode = "sequence" then
      Except.ok (matchCore df mode start_slot exclude_keywords include_keywords)
    else
      Except.error ("Invalid mode: " ++ mode ++ ". Must be 'auto', 'sku', or 'sequence'")

/-- One cell of the CSV text `df.to_csv` renders (quoting of delimiters
inside cells is not modelled; no claim depends on it). -/
def csvCell : Value → String
  | .str s => s
  | .int n => toString n
  | .bool b => if b then "True" else "False"
  | .null => ""

/-- matcher.py:297-309 `export_csv` (`index=False`): header line with the
columns in order, then one line per row, cells in column order. -/
def export_csv (df : DF) : String :=
  String.intercalate "," df.columns ++ "\n" ++
    String.intercalate "\n"
      (df.rows.map fun r =>
        String.intercalate "," (df.columns.map fun c => csvCell (r.getD c Value.null)))

/-- main.py:67-68: split a comma-separated keyword field, trim, and drop
the empties. -/
def parse_keywords (s : String) : List String :=
  ((s.splitOn ",").map pyStrip).filter fun k => k ≠ ""

/-- main.py:30-95 `match_endpoint` (the `/match` route's engine-facing
logic): mode and start slot are checked before the engine is invoked.
The `HTTPException(400, detail)` raised at main.py:54/58 sits inside the
`try` block and is not a `ValueError`, so it is caught by the blanket
`except Exception` at main.py:94-95 and re-raised as a 500 response
whose detail is `"Internal error: " + str(e)`, where `str` of the
exception renders as `"400: " + detail`.  An engine `ValueError` is
caught by the `except ValueError` at main.py:92-93 and re-raised (from
inside that handler, so it propagates) as a 400 response. -/
def match_endpoint (df : DF) (mode : String) (start_slot : Int)
    (exclude_keywords include_keywords : String) :
    Except (Nat × String) (DF × Summary) :=
  if ¬(mode = "auto" ∨ mode = "sku" ∨ mode = "sequence") then
    Except.error (500, "Internal error: 400: Invalid mode: " ++ mode)
  else if start_slot < 1 then
    Except.error (500, "Internal error: 400: start_slot must be >= 1")
  else
    match matchTable df mode start_slot (parse_keywords exclude_keywords)
        (parse_keywords include_keywords) with
    | Except.ok r => Except.ok r
    | Except.error e => Except.error (400, e)

/-- Heap-level embedding of `match` for the aliasing claim: DataFrames
live in a store of cells addressed by position.  `df = df.copy()` at
matcher.py:176 allocates a fresh cell (pandas `copy()` is deep), and
every later write (`df[…] = …`, `df.at[…] = …`, `df.sort_values`)
rebinds only that fresh cell, which is appended to the store; the
validation errors at matcher.py:161 and 172 are raised before the copy,
so an erroring call writes nothing either. -/
def matchProg (store : List DF) (ref : Nat) (mode : String) (start_slot : Int)
    (exclude_keywords include_keywords : List String) :
    List DF × Except String (Nat × Summary) :=
  match store.get? ref with
  | none => (store, Except.error "invalid reference")
  | some df =>
    match matchTable df mode start_slot exclude_keywords include_keywords with
    | Except.error e => (store, Except.error e)
    | Except.ok (df', s) => (store ++ [df'], Except.ok (store.length, s))

/-! ### Cell-access lemmas -/

theorem getD_setCell (r : Row) (c c' : String) (v d : Value) :
    (r.setCell c v).getD c' d = if c' = c then v else r.getD c' d := by
  induction r with
  | nil =>
    by_cases h : c' = c
    · subst h; simp [Row.setCell, Row.getD]
    · simp [Row.setCell, Row.getD, h, Ne.symm h]
  | cons p r ih =>
    obtain ⟨c₀, v₀⟩ := p
    by_cases h₀ : c₀ = c
    · subst h₀
      by_cases h : c' = c₀
      · subst h; simp [Row.setCell, Row.getD]
      · simp [Row.setCell, Row.getD, h, Ne.symm h]
    · by_cases h : c₀ = c'
      · subst h
        simp [Row.setCell, Row.getD, h₀, Ne.symm h₀]
      · simp [Row.setCell, Row.getD, h₀, h, ih]

/-- The slot a row has been assigned, if any (`Value.null` is pandas
`None`/`NaN`, meaning no slot). -/
def getSlot (r : Row) : Option Int :=
  match r.getD "slot" Value.null with
  | .int n => some n
  | _ => none

theorem getSlot_setCell_ne (r : Row) (c : String) (v : Value) (h : c ≠ "slot") :
    getSlot (r.setCell c v) = getSlot r := by
  simp [getSlot, getD_setCell, Ne.symm h]

theorem getD_setCell_ne (r : Row) (c c' : String) (v d : Value) (h : c' ≠ c) :
    (r.setCell c v).getD c' d = r.getD c' d := by
  simp [getD_setCell, h]

theorem getD_setCell_eq (r : Row) (c : String) (v d : Value) :
    (r.setCell c v).getD c d = v := by
  simp [getD_setCell]

theorem should_exclude_congr (r₁ r₂ : Row) (ex : List String)
    (h : r₁.getD "product name" (Value.str "") = r₂.getD "product name" (Value.str "")) :
    should_exclude_row r₁ ex = should_exclude_row r₂ ex := by
  simp [should_exclude_row, h]

theorem should_include_congr (r₁ r₂ : Row) (inc : List String)
    (h : r₁.getD "product name" (Value.str "") = r₂.getD "product name" (Value.str "")) :
    should_include_row r₁ inc = should_include_row r₂ inc := by
  simp [should_include_row, h]

/-! ### Substring characterization -/

theorem strInL_iff (needle : List Char) :
    ∀ hay : List Char, strInL needle hay = true ↔ ∃ p q, hay = p ++ needle ++ q := by
  intro hay
  induction hay with
  | nil =>
    simp only [strInL, List.isEmpty_iff]
    constructor
    · rintro rfl; exact ⟨[], [], rfl⟩
    · rintro ⟨p, q, hpq⟩
      rcases List.append_eq_nil.mp (List.append_eq_nil.mp hpq.symm).1 with ⟨-, h₂⟩
      exact h₂
  | cons c cs ih =>
    simp only [strInL, Bool.or_eq_true]
    constructor
    · rintro (hpre | hrec)
      · rcases List.isPrefixOf_iff_prefix.mp hpre with ⟨t, ht⟩
        exact ⟨[], t, by simp [ht.symm]⟩
      · rcases ih.mp hrec with ⟨p, q, rfl⟩
        exact ⟨c :: p, q, rfl⟩
    · rintro ⟨p, q, hpq⟩
      cases p with
      | nil =>
        left
        exact List.isPrefixOf_iff_prefix.mpr ⟨q, by simpa using hpq.symm⟩
      | cons a p' =>
        right
        refine ih.mpr ⟨p', q, ?_⟩
        simpa using congrArg List.tail hpq

theorem strIn_iff (needle hay : String) :
    strIn needle hay = true ↔ ∃ p q : String, hay = p ++ needle ++ q := by
  constructor
  · intro h
    rcases (strInL_iff needle.toList hay.toList).mp h with ⟨p, q, hpq⟩
    refine ⟨String.mk p, String.mk q, ?_⟩
    apply String.ext
    simpa [String.data_append] using hpq
  · rintro ⟨p, q, rfl⟩
    refine (strInL_iff needle.toList (p ++ needle ++ q).toList).mpr ⟨p.toList, q.toList, ?_⟩
    simp [String.toList, String.data_append]

theorem should_exclude_row_iff (row : Row) (ex : List String) :
    should_exclude_row row ex = true ↔
      ∃ k ∈ ex, ∃ p q : String,
        pyLower (pyStr (row.getD "product name" (Value.str ""))) = p ++ pyLower k ++ q := by
  rcases hex : ex.isEmpty with h | h
  · simp only [should_exclude_row, hex, Bool.false_eq_true, if_false, List.any_eq_true]
    constructor
    · rintro ⟨k, hk, hs⟩
      exact ⟨k, hk, (strIn_iff ..).mp hs⟩
    · rintro ⟨k, hk, hs⟩
      exact ⟨k, hk, (strIn_iff ..).mpr hs⟩
  · rcases List.isEmpty_iff.mp hex with rfl
    simp [should_exclude_row]

theorem should_include_row_iff (row : Row) (inc : List String) :
    should_include_row row inc = true ↔
      (inc = [] ∨ ∃ k ∈ inc, ∃ p q : String,
        pyLower (pyStr (row.getD "product name" (Value.str ""))) = p ++ pyLower k ++ q) := by
  rcases hinc : inc.isEmpty with h | h
  · have hne : ¬(inc = []) := by
      intro hh; rw [hh] at hinc; simp at hinc
    simp only [should_include_row, hinc, Bool.false_eq_true, if_false, List.any_eq_true, hne,
      false_or]
    constructor
    · rintro ⟨k, hk, hs⟩
      exact ⟨k, hk, (strIn_iff ..).mp hs⟩
    · rintro ⟨k, hk, hs⟩
      exact ⟨k, hk, (strIn_iff ..).mpr hs⟩
  · rcases List.isEmpty_iff.mp hinc with rfl
    simp [should_include_row]

/-! ### Identifier-parser lemmas -/

theorem firstRun_eq_none_iff (L : List Char) :
    firstRun L = none ↔ ∀ c ∈ L, ¬(c.isDigit = true) := by
  induction L with
  | nil => simp [firstRun]
  | cons c cs ih =>
    by_cases h : c.isDigit = true
    · simp [firstRun, h]
    · simp [firstRun, h, ih]

theorem digitRuns_head (L : List Char) : (digitRuns L).head? = firstRun L := by
  induction L using digitRuns.induct with
  | case1 => simp [digitRuns, firstRun]
  | case2 c cs h ih => simp [digitRuns, firstRun, h]
  | case3 c cs h ih => simp [digitRuns, firstRun, h, ih]

theorem headMatch_eq_firstRun (L : List Char) :
    (match digitRuns L with
     | [] => none
     | run :: _ => some (natOfDigits run)) = (firstRun L).map natOfDigits := by
  have h := digitRuns_head L
  cases hd : digitRuns L with
  | nil => rw [hd] at h; simp only [List.head?] at h; simp [← h]
  | cons a t => rw [hd] at h; simp only [List.head?] at h; simp [← h]

theorem toList_eq_nil_of_eq_empty {s : String} (h : s = "") : s.toList = [] := by
  subst h; rfl

theorem parse_eq_spec_of_not_falsy (v : Value) (hv : v ≠ Value.null)
    (hf : isAbsentOrFalsy v = false)
    (hs : spec_parse_identifier v = (firstRun (pyStrip (pyStr v)).toList).map natOfDigits) :
    parse_sku_to_slot v = spec_parse_identifier v ∧
      (parse_sku_to_slot v = none ↔
        v = Value.null ∨ pyStrip (pyStr v) = "" ∨
          ∀ c ∈ (pyStrip (pyStr v)).toList, ¬(c.isDigit = true)) := by
  rw [parse_sku_to_slot, hf]
  simp only [Bool.false_eq_true, if_false, hs]
  by_cases he : pyStrip (pyStr v) = ""
  · have : (pyStrip (pyStr v)).toList = [] := toList_eq_nil_of_eq_empty he
    simp [he, this, firstRun]
  · simp only [he, if_false]
    constructor
    · trivial
    · simp [hv, he, Option.map_eq_none', firstRun_eq_none_iff]

theorem spec_parse_eq_firstRun (v : Value) (hv : v ≠ Value.null) :
    spec_parse_identifier v = (firstRun (pyStrip (pyStr v)).toList).map natOfDigits := by
  cases v with
  | null => exact absurd rfl hv
  | str s => exact headMatch_eq_firstRun _
  | int n => exact headMatch_eq_firstRun _
  | bool b => exact headMatch_eq_firstRun _

/-- Claim C3, counterexample: the identifier value `0` (a numeric cell)
is neither absent nor digit-free — its string form is `"0"`, whose first
digit run has value `0` — yet `parse_sku_to_slot` returns no result,
because the Python guard `not sku` at matcher.py:51 also catches the
falsy number `0`. -/
theorem c3_parse_zero_counterexample :
    parse_sku_to_slot (Value.int 0) = none ∧
      spec_parse_identifier (Value.int 0) = some 0 := by
  refine ⟨rfl, ?_⟩
  rw [spec_parse_eq_firstRun _ (by simp)]
  rfl

/-- Claim C3 (amended): for every identifier value other than the
numeric value `0`, the parser returns the integer value of the first
(leftmost) maximal run of decimal digits in the string form of the
value, and returns no result exactly when the value is absent/null,
empty or whitespace-only after trimming, or contains no digit.  (The
numeric value `0` is the one exception: the code's falsiness guard
treats it as absent.) -/
theorem c3_parser_amended (v : Value) (hv : v ≠ Value.int 0) :
    parse_sku_to_slot v = spec_parse_identifier v ∧
      (parse_sku_to_slot v = none ↔
        v = Value.null ∨ pyStrip (pyStr v) = "" ∨
          ∀ c ∈ (pyStrip (pyStr v)).toList, ¬(c.isDigit = true)) := by
  cases v with
  | null =>
    exact ⟨rfl, iff_of_true rfl (Or.inl rfl)⟩
  | str s =>
    by_cases hs : s = ""
    · subst hs
      have h2 : spec_parse_identifier (Value.str "") = none := by
        rw [spec_parse_eq_firstRun _ (by simp)]; rfl
      exact ⟨by rw [h2]; rfl, iff_of_true rfl (Or.inr (Or.inl rfl))⟩
    · have hf : isAbsentOrFalsy (Value.str s) = false := by
        simp [isAbsentOrFalsy, hs]
      exact parse_eq_spec_of_not_falsy _ (by simp) hf (spec_parse_eq_firstRun _ (by simp))
  | int n =>
    have hn : ¬n = 0 := fun h => hv (by rw [h])
    have hf : isAbsentOrFalsy (Value.int n) = false := by
      simp [isAbsentOrFalsy, hn]
    exact parse_eq_spec_of_not_falsy _ (by simp) hf (spec_parse_eq_firstRun _ (by simp))
  | bool b =>
    cases b with
    | false =>
      have h2 : spec_parse_identifier (Value.bool false) = none := by
        rw [spec_parse_eq_firstRun _ (by simp)]; rfl
      refine ⟨by rw [h2]; rfl, iff_of_true rfl (Or.inr (Or.inr ?_))⟩
      decide
    | true =>
      have hf : isAbsentOrFalsy (Value.bool true) = false := rfl
      exact parse_eq_spec_of_not_falsy _ (by simp) hf (spec_parse_eq_firstRun _ (by simp))

/-- Witness for C3's amended theorem at the identifier `" ITEM-001-2023 "`. -/
theorem c3_parser_amended_witness :
    Value.str " ITEM-001-2023 " ≠ Value.int 0 ∧
      (parse_sku_to_slot (Value.str " ITEM-001-2023 ") =
        spec_parse_identifier (Value.str " ITEM-001-2023 ") ∧
      (parse_sku_to_slot (Value.str " ITEM-001-2023 ") = none ↔
        Value.str " ITEM-001-2023 " = Value.null ∨
          pyStrip (pyStr (Value.str " ITEM-001-2023 ")) = "" ∨
          ∀ c ∈ (pyStrip (pyStr (Value.str " ITEM-001-2023 "))).toList, ¬(c.isDigit = true))) :=
  ⟨by simp, c3_parser_amended (Value.str " ITEM-001-2023 ") (by simp)⟩

/-! ### Strategy selection (C4) -/

/-- Scenario D of the specification: identifiers `ITEM-1 … ITEM-4` and
one empty identifier — exactly 80 % of the five rows parse. -/
def tblD : DF :=
  ⟨["sku"],
   [[("sku", Value.str "ITEM-1")], [("sku", Value.str "ITEM-2")],
    [("sku", Value.str "ITEM-3")], [("sku", Value.str "ITEM-4")],
    [("sku", Value.str "")]]⟩

/-- Claim C4: auto mode resolves to the sequence strategy when no `sku`
column exists, and otherwise to the identifier strategy exactly when the
fraction of rows whose identifier parses is at least `0.8`; in
particular the five-row table of Scenario D (ratio exactly `0.8`)
resolves to `sku`. -/
theorem c4_detect_mode :
    (∀ df : DF, df.columns.contains "sku" = false → detect_mode df = "sequence") ∧
    (∀ df : DF, df.columns.contains "sku" = true → df.rows ≠ [] →
      (detect_mode df = "sku" ↔
        (0.8 : ℚ) ≤ (skuValidCount df : ℚ) / (df.rows.length : ℚ))) ∧
    detect_mode tblD = "sku" := by
  refine ⟨?_, ?_, rfl⟩
  · intro df h
    unfold detect_mode
    rw [h]
    simp
  · intro df h hne
    have hlen : 0 < df.rows.length := List.length_pos.mpr hne
    have hlq : (0 : ℚ) < (df.rows.length : ℚ) := by exact_mod_cast hlen
    have key : ((0.8 : ℚ) ≤ (skuValidCount df : ℚ) / (df.rows.length : ℚ)) ↔
        4 * df.rows.length ≤ 5 * skuValidCount df := by
      rw [le_div_iff₀ hlq]
      constructor
      · intro hh
        have h5 : (4 * df.rows.length : ℚ) ≤ 5 * (skuValidCount df : ℚ) := by
          linarith
        exact_mod_cast h5
      · intro hh
        have h5 : (4 * df.rows.length : ℚ) ≤ 5 * (skuValidCount df : ℚ) := by
          exact_mod_cast hh
        push_cast at h5
        linarith
    rw [key]
    have ht : ¬(df.rows.length = 0) := Nat.pos_iff_ne_zero.mp hlen
    simp only [detect_mode, h, Bool.not_true, Bool.false_eq_true, if_false, ht, ge_iff_le]
    split_ifs with hc
    · exact iff_of_true rfl hc
    · exact iff_of_false (by simp) hc

/-- Witness for C4 at the Scenario D table. -/
theorem c4_detect_mode_witness :
    tblD.columns.contains "sku" = true ∧ tblD.rows ≠ [] ∧
      (detect_mode tblD = "sku" ↔
        (0.8 : ℚ) ≤ (skuValidCount tblD : ℚ) / (tblD.rows.length : ℚ)) :=
  ⟨rfl, by decide, c4_detect_mode.2.1 tblD rfl (by decide)⟩

/-! ### Pass characterizations -/

/-- The per-row effect of the SKU loop body (matcher.py:192-218). -/
def annotateSkuRow (ex inc : List String) (row : Row) : Row :=
  if should_exclude_row row ex then row.setCell "match_method" (Value.str "excluded")
  else if !(should_include_row row inc) then row.setCell "match_method" (Value.str "excluded")
  else
    match parse_sku_to_slot (row.getD "sku" Value.null) with
    | none =>
      ((row.setCell "match_method" (Value.str "manual_review")).setCell
        "needs_review" (Value.bool true)).setCell "review_reason" (Value.str "sku_missing_or_invalid")
    | some n =>
      ((row.setCell "slot" (Value.int n)).setCell
        "matched_item_label" (Value.str ("Item #" ++ toString n))).setCell
        "match_method" (Value.str "sku")

theorem skuPass_rows_eq (ex inc : List String) :
    ∀ (rows : List (Nat × Row)) (st : PassState),
      (skuPass ex inc rows st).1 = rows.map fun p => (p.1, annotateSkuRow ex inc p.2) := by
  intro rows
  induction rows with
  | nil => intro st; rfl
  | cons p rest ih =>
    intro st
    obtain ⟨idx, row⟩ := p
    by_cases h1 : should_exclude_row row ex
    · simp [skuPass, annotateSkuRow, h1, ih]
    · by_cases h2 : should_include_row row inc
      · cases hp : parse_sku_to_slot (row.getD "sku" Value.null) with
        | none => simp [skuPass, annotateSkuRow, h1, h2, hp, ih]
        | some n => simp [skuPass, annotateSkuRow, h1, h2, hp, ih]
      · simp [skuPass, annotateSkuRow, h1, h2, ih]

theorem getSlot_setCell_method (row : Row) (v : Value) :
    getSlot (row.setCell "match_method" v) = getSlot row :=
  getSlot_setCell_ne _ _ _ (by decide)

theorem getSlot_annotateSkuRow (ex inc : List String) (row : Row) :
    getSlot (annotateSkuRow ex inc row) =
      match parse_sku_to_slot (row.getD "sku" Value.null) with
      | some n =>
        if should_exclude_row row ex = false ∧ should_include_row row inc = true then
          some (Int.ofNat n)
        else getSlot row
      | none => getSlot row := by
  unfold annotateSkuRow
  by_cases h1 : should_exclude_row row ex
  · cases hp : parse_sku_to_slot (row.getD "sku" Value.null) <;>
      simp [h1, getSlot_setCell_ne, getSlot, getD_setCell]
  · by_cases h2 : should_include_row row inc
    · cases hp : parse_sku_to_slot (row.getD "sku" Value.null) with
      | none => simp [h1, h2, hp, getSlot, getD_setCell]
      | some n => simp [h1, h2, hp, getSlot, getD_setCell]
    · cases hp : parse_sku_to_slot (row.getD "sku" Value.null) <;>
        simp [h1, h2, getSlot, getD_setCell]

/-- Rebuild the `slot_usage` dict from an annotated row list
(matcher.py:220-224/258-262 fire exactly on the rows that got a slot). -/
def usageOfRows (u : List (Int × List Nat)) : List (Nat × Row) → List (Int × List Nat)
  | [] => u
  | p :: rest =>
    usageOfRows
      (match getSlot p.2 with
       | some v => addUsage u v p.1
       | none => u) rest

theorem skuPass_usage_eq (ex inc : List String) :
    ∀ (rows : List (Nat × Row)) (st : PassState),
      (∀ p ∈ rows, getSlot p.2 = none) →
      (skuPass ex inc rows st).2.slot_usage =
        usageOfRows st.slot_usage (skuPass ex inc rows st).1 := by
  intro rows
  induction rows with
  | nil => intro st h; rfl
  | cons p rest ih =>
    intro st h
    obtain ⟨idx, row⟩ := p
    have hrow : getSlot row = none := h (idx, row) (by simp)
    have hrest : ∀ q ∈ rest, getSlot q.2 = none := fun q hq => h q (by simp [hq])
    by_cases h1 : should_exclude_row row ex
    · simp [skuPass, h1, usageOfRows, getSlot_setCell_method, hrow, ih _ hrest]
    · by_cases h2 : should_include_row row inc
      · cases hp : parse_sku_to_slot (row.getD "sku" Value.null) with
        | none =>
          have hkeep : getSlot (((row.setCell "match_method" (Value.str "manual_review")).setCell
              "needs_review" (Value.bool true)).setCell "review_reason"
              (Value.str "sku_missing_or_invalid")) = none := by
            rw [getSlot_setCell_ne _ _ _ (by decide), getSlot_setCell_ne _ _ _ (by decide),
              getSlot_setCell_method]
            exact hrow
          simp [skuPass, h1, h2, hp, usageOfRows, hkeep, ih _ hrest]
        | some n =>
          have hslot : getSlot (((row.setCell "slot" (Value.int n)).setCell
              "matched_item_label" (Value.str ("Item #" ++ toString n))).setCell
              "match_method" (Value.str "sku")) = some (Int.ofNat n) := by
            rw [getSlot_setCell_method, getSlot_setCell_ne _ _ _ (by decide)]
            simp [getSlot, getD_setCell]
          simp [skuPass, h1, h2, hp, usageOfRows, hslot, ih _ hrest]
      · simp [skuPass, h1, h2, usageOfRows, getSlot_setCell_method, hrow, ih _ hrest]

/-- A row passes the filter when it is neither excluded nor
include-rejected (matcher.py:194-203/241-250). -/
def passesFilter (ex inc : List String) (r : Row) : Bool :=
  !(should_exclude_row r ex) && should_include_row r inc

/-- The row annotation of the sequence branch's assignment step
(matcher.py:253-255). -/
def seqAssignRow (row : Row) (s : Int) : Row :=
  ((row.setCell "slot" (Value.int s)).setCell
    "matched_item_label" (Value.str ("Item #" ++ toString s))).setCell
    "match_method" (Value.str "sequence")

theorem getSlot_seqAssignRow (row : Row) (s : Int) :
    getSlot (seqAssignRow row s) = some s := by
  unfold seqAssignRow
  rw [getSlot_setCell_method, getSlot_setCell_ne _ _ _ (by decide)]
  simp [getSlot, getD_setCell]

theorem seqPass_slots (ex inc : List String) :
    ∀ (rows : List (Nat × Row)) (slot : Int) (st : PassState),
      (∀ p ∈ rows, getSlot p.2 = none) →
      ((seqPass ex inc rows slot st).1).filterMap (fun p => getSlot p.2) =
        (List.range (rows.filter fun p => passesFilter ex inc p.2).length).map
          (fun j : Nat => slot + (j : Int)) := by
  intro rows
  induction rows with
  | nil => intro slot st h; rfl
  | cons p rest ih =>
    intro slot st h
    obtain ⟨idx, row⟩ := p
    have hrow : getSlot row = none := h (idx, row) (by simp)
    have hrest : ∀ q ∈ rest, getSlot q.2 = none := fun q hq => h q (by simp [hq])
    by_cases h1 : should_exclude_row row ex
    · have hp : passesFilter ex inc row = false := by simp [passesFilter, h1]
      simp [seqPass, h1, List.filter_cons, hp, getSlot_setCell_method, hrow,
        ih slot _ hrest]
    · by_cases h2 : should_include_row row inc
      · have hp : passesFilter ex inc row = true := by simp [passesFilter, h1, h2]
        have hlen : ((((idx, row) :: rest).filter fun p => passesFilter ex inc p.2).length) =
            ((rest.filter fun p => passesFilter ex inc p.2).length) + 1 := by
          simp [List.filter_cons, hp]
        have hslot : getSlot (((row.setCell "slot" (Value.int slot)).setCell
            "matched_item_label" (Value.str ("Item #" ++ toString slot))).setCell
            "match_method" (Value.str "sequence")) = some slot := getSlot_seqAssignRow row slot
        rw [seqPass]
        simp only [h1, Bool.false_eq_true, if_false, h2, Bool.not_true, if_false]
        rw [hlen]
        simp only [List.filterMap_cons, hslot]
        rw [ih (slot + 1) _ hrest]
        rw [List.range_succ_eq_map, List.map_cons, List.map_map]
        congr 1
        · simp
        · apply List.map_congr_left
          intro j _
          simp only [Function.comp]
          push_cast
          ring
      · have hp : passesFilter ex inc row = false := by simp [passesFilter, h2]
        simp [seqPass, h1, h2, List.filter_cons, hp, getSlot_setCell_method, hrow,
          ih slot _ hrest]

theorem seqPass_usage_eq (ex inc : List String) :
    ∀ (rows : List (Nat × Row)) (slot : Int) (st : PassState),
      (∀ p ∈ rows, getSlot p.2 = none) →
      (seqPass ex inc rows slot st).2.slot_usage =
        usageOfRows st.slot_usage (seqPass ex inc rows slot st).1 := by
  intro rows
  induction rows with
  | nil => intro slot st h; rfl
  | cons p rest ih =>
    intro slot st h
    obtain ⟨idx, row⟩ := p
    have hrow : getSlot row = none := h (idx, row) (by simp)
    have hrest : ∀ q ∈ rest, getSlot q.2 = none := fun q hq => h q (by simp [hq])
    by_cases h1 : should_exclude_row row ex
    · simp [seqPass, h1, usageOfRows, getSlot_setCell_method, hrow, ih slot _ hrest]
    · by_cases h2 : should_include_row row inc
      · have hslot : getSlot (((row.setCell "slot" (Value.int slot)).setCell
            "matched_item_label" (Value.str ("Item #" ++ toString slot))).setCell
            "match_method" (Value.str "sequence")) = some slot := getSlot_seqAssignRow row slot
        simp [seqPass, h1, h2, usageOfRows, hslot, ih (slot + 1) _ hrest]
      · simp [seqPass, h1, h2, usageOfRows, getSlot_setCell_method, hrow, ih slot _ hrest]

theorem seqPass_fst (ex inc : List String) :
    ∀ (rows : List (Nat × Row)) (slot : Int) (st : PassState),
      ((seqPass ex inc rows slot st).1).map Prod.fst = rows.map Prod.fst := by
  intro rows
  induction rows with
  | nil => intro slot st; rfl
  | cons p rest ih =>
    intro slot st
    obtain ⟨idx, row⟩ := p
    by_cases h1 : should_exclude_row row ex
    · simp [seqPass, h1, ih slot]
    · by_cases h2 : should_include_row row inc
      · simp [seqPass, h1, h2, ih (slot + 1)]
      · simp [seqPass, h1, h2, ih slot]

theorem skuPass_fst (ex inc : List String) (rows : List (Nat × Row)) (st : PassState) :
    ((skuPass ex inc rows st).1).map Prod.fst = rows.map Prod.fst := by
  rw [skuPass_rows_eq]
  simp [List.map_map, Function.comp]

/-- Shape of a sequence-pass output row: it is its input row marked
`excluded`, or its input row given some slot; the branch taken is
decided by the row filter. -/
theorem seqPass_mem (ex inc : List String) :
    ∀ (rows : List (Nat × Row)) (slot : Int) (st : PassState) (q : Nat × Row),
      q ∈ (seqPass ex inc rows slot st).1 →
      ∃ p ∈ rows, q.1 = p.1 ∧
        (q.2 = p.2.setCell "match_method" (Value.str "excluded") ∧
            ¬(should_exclude_row p.2 ex = false ∧ should_include_row p.2 inc = true) ∨
          (should_exclude_row p.2 ex = false ∧ should_include_row p.2 inc = true) ∧
            ∃ s : Int, q.2 = seqAssignRow p.2 s) := by
  intro rows
  induction rows with
  | nil => intro slot st q hq; simp [seqPass] at hq
  | cons pr rest ih =>
    intro slot st q hq
    obtain ⟨idx, row⟩ := pr
    by_cases h1 : should_exclude_row row ex
    · rw [seqPass] at hq
      simp only [h1, if_true] at hq
      rcases List.mem_cons.mp hq with rfl | hq'
      · exact ⟨(idx, row), by simp, rfl, Or.inl ⟨rfl, by simp [h1]⟩⟩
      · rcases ih slot _ q hq' with ⟨p, hp, hfst, hcase⟩
        exact ⟨p, by simp [hp], hfst, hcase⟩
    · by_cases h2 : should_include_row row inc
      · rw [seqPass] at hq
        simp only [h1, h2, Bool.false_eq_true, if_false, Bool.not_true, if_true] at hq
        rcases List.mem_cons.mp hq with rfl | hq'
        · refine ⟨(idx, row), by simp, rfl, Or.inr ⟨⟨by simp [h1], h2⟩, slot, rfl⟩⟩
        · rcases ih (slot + 1) _ q hq' with ⟨p, hp, hfst, hcase⟩
          exact ⟨p, by simp [hp], hfst, hcase⟩
      · rw [seqPass] at hq
        simp only [h1, h2, Bool.false_eq_true, if_false, Bool.not_false, if_true] at hq
        rcases List.mem_cons.mp hq with rfl | hq'
        · exact ⟨(idx, row), by simp, rfl, Or.inl ⟨rfl, by simp [h2]⟩⟩
        · rcases ih slot _ q hq' with ⟨p, hp, hfst, hcase⟩
          exact ⟨p, by simp [hp], hfst, hcase⟩

/-! ### Preparation of the annotation columns -/

/-- The effect of matcher.py:177-181 on one row. -/
def prepRow (r : Row) : Row :=
  ((((r.setCell "slot" Value.null).setCell
    "matched_item_label" Value.null).setCell
    "match_method" Value.null).setCell
    "needs_review" (Value.bool false)).setCell
    "review_reason" (Value.str "")

theorem prepDF_rows (df : DF) : (prepDF df).rows = df.rows.map prepRow := by
  simp [prepDF, DF.setColScalar, List.map_map, Function.comp, prepRow]

theorem getSlot_prepRow (r : Row) : getSlot (prepRow r) = none := by
  simp [getSlot, prepRow, getD_setCell]

theorem prepRow_method (r : Row) : (prepRow r).getD "match_method" Value.null = Value.null := by
  simp [prepRow, getD_setCell]

theorem prepRow_needs (r : Row) :
    (prepRow r).getD "needs_review" Value.null = Value.bool false := by
  simp [prepRow, getD_setCell]

theorem prepRow_reason (r : Row) (d : Value) :
    (prepRow r).getD "review_reason" d = Value.str "" := by
  simp [prepRow, getD_setCell]

theorem prepRow_pname (r : Row) (d : Value) :
    (prepRow r).getD "product name" d = r.getD "product name" d := by
  simp [prepRow, getD_setCell]

theorem prepRow_sku (r : Row) (d : Value) :
    (prepRow r).getD "sku" d = r.getD "sku" d := by
  simp [prepRow, getD_setCell]

/-! ### Sorting is a permutation -/

theorem insertByLE_perm (le : Nat × Row → Nat × Row → Bool) (x : Nat × Row) :
    ∀ l : List (Nat × Row), List.Perm (insertByLE le x l) (x :: l) := by
  intro l
  induction l with
  | nil => simp [insertByLE]
  | cons y ys ih =>
    unfold insertByLE
    split_ifs
    · exact List.Perm.refl _
    · exact (ih.cons y).trans (List.Perm.swap x y ys)

theorem sortRows_perm (rows : List (Nat × Row)) : List.Perm (sortRows rows) rows := by
  induction rows with
  | nil => simp [sortRows]
  | cons p rest ih =>
    have : sortRows (p :: rest) = insertByLE keyLE p (sortRows rest) := rfl
    rw [this]
    exact (insertByLE_perm keyLE p (sortRows rest)).trans (ih.cons p)

/-! ### Duplicate-pass characterization -/

/-- How many times `dupPass` flags the row carrying index `i`: once per
occurrence of `i` in a duplicate group. -/
def dupFlagCount : List (Int × List Nat) → Nat → Nat
  | [], _ => 0
  | e :: rest, i => (if e.2.length > 1 then e.2.count i else 0) + dupFlagCount rest i

theorem flagIndices_fst (idxs : List Nat) :
    ∀ (rows : List (Nat × Row)) (nrc : Nat),
      (flagIndices rows nrc idxs).1 =
        rows.map fun p => (p.1, flagDupRow^[idxs.count p.1] p.2) := by
  induction idxs with
  | nil =>
    intro rows nrc
    simp [flagIndices]
  | cons i idxs ih =>
    intro rows nrc
    rw [flagIndices, ih]
    unfold updateRowAt
    rw [List.map_map]
    apply List.map_congr_left
    intro p _
    by_cases h : p.1 = i
    · simp [Function.comp, h, List.count_cons, Function.iterate_succ_apply]
    · simp [Function.comp, h, List.count_cons]

theorem dupPass_rows_eq :
    ∀ (u : List (Int × List Nat)) (rows : List (Nat × Row)) (d n : Nat),
      (dupPass u rows d n).1 =
        rows.map fun p => (p.1, flagDupRow^[dupFlagCount u p.1] p.2) := by
  intro u
  induction u with
  | nil =>
    intro rows d n
    simp [dupPass, dupFlagCount]
  | cons e rest ih =>
    intro rows d n
    rw [dupPass]
    by_cases hb : e.2.length > 1
    · simp only [hb, if_true]
      rw [ih, flagIndices_fst, List.map_map]
      apply List.map_congr_left
      intro p _
      have hdf : dupFlagCount (e :: rest) p.1 = e.2.count p.1 + dupFlagCount rest p.1 := by
        simp [dupFlagCount, hb]
      simp only [Function.comp]
      rw [← Function.iterate_add_apply, hdf,
        Nat.add_comm (e.2.count p.1) (dupFlagCount rest p.1)]
    · simp only [hb, if_false]
      rw [ih]
      apply List.map_congr_left
      intro p _
      simp [dupFlagCount, hb]

theorem dupPass_dup_eq :
    ∀ (u : List (Int × List Nat)) (rows : List (Nat × Row)) (d n : Nat),
      (dupPass u rows d n).2.1 = d + (u.filter fun e => e.2.length > 1).length := by
  intro u
  induction u with
  | nil => intro rows d n; simp [dupPass]
  | cons e rest ih =>
    intro rows d n
    rw [dupPass]
    by_cases hb : e.2.length > 1
    · simp only [hb, if_true]
      rw [ih]
      simp [List.filter_cons, hb]
      omega
    · simp only [hb, if_false]
      rw [ih]
      simp [List.filter_cons, hb]

theorem flagDupRow_getD_ne (r : Row) (c : String) (d : Value)
    (h1 : c ≠ "needs_review") (h2 : c ≠ "review_reason") :
    (flagDupRow r).getD c d = r.getD c d := by
  unfold flagDupRow
  rw [getD_setCell_ne _ _ _ _ _ h2, getD_setCell_ne _ _ _ _ _ h1]

theorem getD_flagIter_ne (n : Nat) (r : Row) (c : String) (d : Value)
    (h1 : c ≠ "needs_review") (h2 : c ≠ "review_reason") :
    (flagDupRow^[n] r).getD c d = r.getD c d := by
  induction n with
  | zero => rfl
  | succ m ih =>
    rw [Function.iterate_succ_apply', flagDupRow_getD_ne _ _ _ h1 h2, ih]

theorem getSlot_flagIter (n : Nat) (r : Row) : getSlot (flagDupRow^[n] r) = getSlot r := by
  simp [getSlot, getD_flagIter_ne n r "slot" Value.null (by decide) (by decide)]

theorem flagDupRow_needs (r : Row) :
    (flagDupRow r).getD "needs_review" Value.null = Value.bool true := by
  unfold flagDupRow
  rw [getD_setCell_ne _ _ _ _ _ (by decide), getD_setCell_eq]

theorem flagDupRow_reason (r : Row) :
    ∃ pre, (flagDupRow r).getD "review_reason" Value.null = Value.str (pre ++ "duplicate_slot") := by
  unfold flagDupRow
  rw [getD_setCell_eq]
  by_cases h : pyTruthy ((r.setCell "needs_review" (Value.bool true)).getD "review_reason"
      (Value.str "")) = true
  · refine ⟨pyStr ((r.setCell "needs_review" (Value.bool true)).getD "review_reason"
      (Value.str "")) ++ "; ", ?_⟩
    rw [if_pos h, String.append_assoc,
      show ("; " ++ "duplicate_slot" : String) = "; duplicate_slot" from rfl]
  · exact ⟨"", by
      rw [if_neg h, show (("" : String) ++ "duplicate_slot") = "duplicate_slot" from rfl]⟩

theorem flagIter_flags (n : Nat) (hn : 1 ≤ n) (r : Row) :
    (flagDupRow^[n] r).getD "needs_review" Value.null = Value.bool true ∧
      ∃ pre, (flagDupRow^[n] r).getD "review_reason" Value.null =
        Value.str (pre ++ "duplicate_slot") := by
  obtain ⟨m, rfl⟩ : ∃ m, n = m + 1 := ⟨n - 1, by omega⟩
  rw [Function.iterate_succ_apply']
  exact ⟨flagDupRow_needs _, flagDupRow_reason _⟩

/-! ### The slot-usage dict as a grouping of assigned rows -/

/-- The indices of the rows assigned slot `v`, in row order. -/
def assignedIdxs (rows : List (Nat × Row)) (v : Int) : List Nat :=
  (rows.filter fun p => getSlot p.2 == some v).map Prod.fst

/-- The invariant tying `slot_usage` to the annotated rows: keys are
distinct, each key's list is exactly the indices of the rows assigned
that slot (in order), and every assigned slot is a key. -/
def GoodUsage (rows : List (Nat × Row)) (u : List (Int × List Nat)) : Prop :=
  (u.map Prod.fst).Nodup ∧
  (∀ e ∈ u, e.2 = assignedIdxs rows e.1) ∧
  (∀ p ∈ rows, ∀ v : Int, getSlot p.2 = some v → v ∈ u.map Prod.fst)

theorem lookup_isSome_iff_keys (u : List (Int × List Nat)) (v : Int) :
    (u.lookup v).isSome = true ↔ v ∈ u.map Prod.fst := by
  induction u with
  | nil => simp [List.lookup]
  | cons e rest ih =>
    by_cases h : v = e.1
    · simp [List.lookup, h]
    · have hb : (v == e.1) = false := beq_eq_false_iff_ne.mpr h
      simp [List.lookup, hb, ih, h]

theorem assignedIdxs_append_one (done : List (Nat × Row)) (p : Nat × Row) (v : Int) :
    assignedIdxs (done ++ [p]) v =
      assignedIdxs done v ++ (if getSlot p.2 == some v then [p.1] else []) := by
  unfold assignedIdxs
  rw [List.filter_append, List.map_append]
  congr 1
  by_cases h : getSlot p.2 == some v
  · simp [List.filter, h]
  · simp only [Bool.not_eq_true] at h
    simp [List.filter, h]

theorem goodUsage_step (done : List (Nat × Row)) (u : List (Int × List Nat))
    (p : Nat × Row) (hg : GoodUsage done u) :
    GoodUsage (done ++ [p])
      (match getSlot p.2 with
       | some v => addUsage u v p.1
       | none => u) := by
  obtain ⟨hkeys, hent, hcov⟩ := hg
  cases hs : getSlot p.2 with
  | none =>
    refine ⟨hkeys, ?_, ?_⟩
    · intro e he
      rw [hent e he, assignedIdxs_append_one]
      simp [hs]
    · intro q hq v hv
      rcases List.mem_append.mp hq with hq' | hq'
      · exact hcov q hq' v hv
      · rcases List.mem_singleton.mp hq' with rfl
        rw [hs] at hv
        exact absurd hv (by simp)
  | some v =>
    show GoodUsage (done ++ [p]) (addUsage u v p.1)
    unfold addUsage
    by_cases hpres : (u.lookup v).isSome = true
    · have hkeys' : ((u.map fun e => if e.1 = v then (e.1, e.2 ++ [p.1]) else e).map
          Prod.fst) = u.map Prod.fst := by
        rw [List.map_map]
        refine List.map_congr_left fun e _ => ?_
        by_cases h : e.1 = v <;> simp [h]
      rw [if_pos hpres]
      refine ⟨by rw [hkeys']; exact hkeys, ?_, ?_⟩
      · intro e' he'
        rcases List.mem_map.mp he' with ⟨e, he, rfl⟩
        by_cases h : e.1 = v
        · simp only [h, if_true]
          rw [assignedIdxs_append_one, ← h, ← hent e he]
          simp [hs, h]
        · simp only [h, if_false]
          rw [hent e he, assignedIdxs_append_one]
          have hbf : (getSlot p.2 == some e.1) = false := by
            rw [hs]
            exact beq_eq_false_iff_ne.mpr (by simp [Ne.symm h])
          simp [hbf]
      · intro q hq w hw
        rw [hkeys']
        rcases List.mem_append.mp hq with hq' | hq'
        · exact hcov q hq' w hw
        · rcases List.mem_singleton.mp hq' with rfl
          rw [hs] at hw
          have hvw := Option.some.inj hw
          subst hvw
          exact (lookup_isSome_iff_keys u v).mp hpres
    · rw [if_neg hpres]
      have hnot : v ∉ u.map Prod.fst := fun hmem =>
        hpres ((lookup_isSome_iff_keys u v).mpr hmem)
      refine ⟨?_, ?_, ?_⟩
      · rw [List.map_append]
        simp only [List.map_cons, List.map_nil]
        exact List.Nodup.append hkeys (List.nodup_singleton v)
          (by intro a ha hb; rcases List.mem_singleton.mp hb with rfl; exact hnot ha)
      · intro e he
        rcases List.mem_append.mp he with he' | he'
        · have hne : e.1 ≠ v := by
            intro hh
            exact hnot (hh ▸ List.mem_map_of_mem Prod.fst he')
          rw [hent e he', assignedIdxs_append_one]
          have hbf : (getSlot p.2 == some e.1) = false := by
            rw [hs]
            exact beq_eq_false_iff_ne.mpr (by simp [Ne.symm hne])
          simp [hbf]
        · rcases List.mem_singleton.mp he' with rfl
          have hnil : assignedIdxs done v = [] := by
            unfold assignedIdxs
            rw [List.map_eq_nil_iff]
            rw [List.filter_eq_nil_iff]
            intro q hq hqv
            exact hnot (hcov q hq v (by simpa using hqv))
          show [p.1] = assignedIdxs (done ++ [p]) v
          rw [assignedIdxs_append_one, hnil]
          simp [hs]
      · intro q hq w hw
        rw [List.map_append]
        rcases List.mem_append.mp hq with hq' | hq'
        · exact List.mem_append_left _ (hcov q hq' w hw)
        · rcases List.mem_singleton.mp hq' with rfl
          rw [hs] at hw
          have hvw := Option.some.inj hw
          subst hvw
          simp

theorem goodUsage_usageOfRows :
    ∀ (rows done : List (Nat × Row)) (u : List (Int × List Nat)),
      GoodUsage done u → GoodUsage (done ++ rows) (usageOfRows u rows) := by
  intro rows
  induction rows with
  | nil => intro done u hg; simpa using hg
  | cons p rest ih =>
    intro done u hg
    have h2 := ih (done ++ [p]) _ (goodUsage_step done u p hg)
    rw [List.append_assoc] at h2
    simpa using h2

theorem goodUsage_of_rows (rows : List (Nat × Row)) :
    GoodUsage rows (usageOfRows [] rows) := by
  have := goodUsage_usageOfRows rows [] [] ⟨by simp, by simp, by simp⟩
  simpa using this

theorem dupFlagCount_pos (u : List (Int × List Nat)) (v : Int) (idxs : List Nat) (i : Nat)
    (he : (v, idxs) ∈ u) (hlen : idxs.length > 1) (hi : i ∈ idxs) :
    1 ≤ dupFlagCount u i := by
  induction u with
  | nil => simp at he
  | cons e rest ih =>
    rcases List.mem_cons.mp he with heq | he'
    · have hc : 0 < idxs.count i := List.count_pos_iff.mpr hi
      rw [← heq]
      simp only [dupFlagCount, hlen, if_true]
      omega
    · have := ih he'
      unfold dupFlagCount
      omega

theorem dupFlagCount_eq_zero (u : List (Int × List Nat)) (i : Nat)
    (h : ∀ e ∈ u, e.2.length > 1 → i ∉ e.2) : dupFlagCount u i = 0 := by
  induction u with
  | nil => rfl
  | cons e rest ih =>
    unfold dupFlagCount
    have h2 : dupFlagCount rest i = 0 := ih fun e' he' => h e' (by simp [he'])
    by_cases hb : e.2.length > 1
    · rw [h2, if_pos hb, List.count_eq_zero.mpr (h e (by simp) hb)]
    · rw [h2, if_neg hb]

theorem length_assignedIdxs (rows : List (Nat × Row)) (v : Int) :
    (assignedIdxs rows v).length = (rows.filter fun p => getSlot p.2 == some v).length := by
  unfold assignedIdxs
  exact List.length_map ..

/-- Under the invariant, the number of duplicate groups in `slot_usage`
is the number of distinct slot values assigned to more than one row. -/
theorem goodUsage_dupCount (rows : List (Nat × Row)) (u : List (Int × List Nat))
    (hg : GoodUsage rows u) :
    (u.filter fun e => e.2.length > 1).length =
      ((rows.filterMap fun p => getSlot p.2).dedup.filter
        fun v => 1 < (rows.filter fun p => getSlot p.2 == some v).length).length := by
  obtain ⟨hkeys, hent, hcov⟩ := hg
  rw [show (u.filter fun e => e.2.length > 1).length =
      ((u.filter fun e => e.2.length > 1).map Prod.fst).length from (List.length_map ..).symm]
  apply List.Perm.length_eq
  refine (List.perm_ext_iff_of_nodup ?_ ?_).mpr ?_
  · exact List.Nodup.sublist (List.Sublist.map Prod.fst (List.filter_sublist ..)) hkeys
  · exact List.Nodup.filter _ (List.nodup_dedup _)
  · intro v
    constructor
    · intro hv
      rcases List.mem_map.mp hv with ⟨e, hef, rfl⟩
      rcases List.mem_filter.mp hef with ⟨heu, hbig⟩
      rw [decide_eq_true_eq] at hbig
      rw [hent e heu] at hbig
      have hcount : 1 < (rows.filter fun p => getSlot p.2 == some e.1).length := by
        rw [← length_assignedIdxs]
        exact hbig
      have hne : (rows.filter fun p => getSlot p.2 == some e.1) ≠ [] := by
        intro hh
        rw [hh] at hcount
        simp at hcount
      rcases List.exists_mem_of_ne_nil _ hne with ⟨q, hq⟩
      rcases List.mem_filter.mp hq with ⟨hqrows, hqslot⟩
      refine List.mem_filter.mpr ⟨List.mem_dedup.mpr ?_, by simpa using hcount⟩
      exact List.mem_filterMap.mpr ⟨q, hqrows, by simpa using hqslot⟩
    · intro hv
      rcases List.mem_filter.mp hv with ⟨hvd, hcount⟩
      rw [decide_eq_true_eq] at hcount
      rcases List.mem_filterMap.mp (List.mem_dedup.mp hvd) with ⟨q, hqrows, hqslot⟩
      have hvk : v ∈ u.map Prod.fst := hcov q hqrows v hqslot
      rcases List.mem_map.mp hvk with ⟨e, heu, rfl⟩
      refine List.mem_map.mpr ⟨e, List.mem_filter.mpr ⟨heu, ?_⟩, rfl⟩
      rw [decide_eq_true_eq, hent e heu, length_assignedIdxs]
      exact hcount

/-! ### Engine-level inversion -/

/-- The mode the engine actually runs (matcher.py:169-170). -/
def resolvedMode (df : DF) (mode : String) : String :=
  if mode == "auto" then detect_mode df else mode

theorem matchTable_ok_inv {df : DF} {mode : String} {start : Int} {ex inc : List String}
    {out : DF} {s : Summary}
    (h : matchTable df mode start ex inc = Except.ok (out, s)) :
    df.rows.isEmpty = false ∧
    (resolvedMode df mode = "sku" ∨ resolvedMode df mode = "sequence") ∧
    (out, s) = matchCore df (resolvedMode df mode) start
      (ex.map pyStrip) (inc.map pyStrip) := by
  unfold resolvedMode
  simp only [matchTable] at h
  by_cases h1 : df.rows.isEmpty = true
  · rw [if_pos h1] at h
    exact absurd h (by simp)
  · rw [if_neg h1] at h
    by_cases h2 : ((if mode == "auto" then detect_mode df else mode) = "sku" ∨
        (if mode == "auto" then detect_mode df else mode) = "sequence")
    · rw [if_pos h2] at h
      exact ⟨by simpa using h1, h2, (Except.ok.inj h).symm⟩
    · rw [if_neg h2] at h
      exact absurd h (by simp)

theorem matchCore_mode_used (df : DF) (mode : String) (start : Int) (ex inc : List String) :
    (matchCore df mode start ex inc).2.mode_used = mode := rfl

theorem matchCore_rows (df : DF) (mode : String) (start : Int) (ex inc : List String) :
    (matchCore df mode start ex inc).1.rows =
      (dupPass (runStrategy (prepDF df) mode start ex inc).2.2.slot_usage
        (runStrategy (prepDF df) mode start ex inc).2.1 0
        (runStrategy (prepDF df) mode start ex inc).2.2.needs_review_count).1.map Prod.snd := rfl

theorem matchCore_duplicate_slots (df : DF) (mode : String) (start : Int)
    (ex inc : List String) :
    (matchCore df mode start ex inc).2.duplicate_slots =
      (dupPass (runStrategy (prepDF df) mode start ex inc).2.2.slot_usage
        (runStrategy (prepDF df) mode start ex inc).2.1 0
        (runStrategy (prepDF df) mode start ex inc).2.2.needs_review_count).2.1 := rfl

theorem runStrategy_sku (df₁ : DF) (start : Int) (ex inc : List String) :
    runStrategy df₁ "sku" start ex inc =
      (df₁.columns, skuPass ex inc (indexRows df₁.rows) {}) := by
  simp [runStrategy]

/-- The row sequence the sequence branch actually walks (matcher.py
228-239): timestamp-sorted when a `placed at` column exists, the
original order otherwise. -/
def seqInputRows (df₁ : DF) : List (Nat × Row) :=
  if df₁.columns.contains "placed at" then
    sortRows ((indexRows df₁.rows).map fun p =>
      (p.1, p.2.setCell "_sort_key" (to_datetime_coerce (p.2.getD "placed at" Value.null))))
  else indexRows df₁.rows

theorem runStrategy_seq_snd (df₁ : DF) (mode : String) (start : Int) (ex inc : List String)
    (hm : mode ≠ "sku") :
    (runStrategy df₁ mode start ex inc).2 = seqPass ex inc (seqInputRows df₁) start {} := by
  unfold runStrategy seqInputRows
  rw [if_neg hm]
  by_cases hp : "placed at" ∈ df₁.columns <;> simp [hp]

/-! ### The pass inputs are freshly prepared rows -/

/-- What matcher.py:177-181 guarantees of every row entering a pass:
no slot, no method, review flag off, empty reason. -/
def PreppedRow (r : Row) : Prop :=
  getSlot r = none ∧
  r.getD "match_method" Value.null = Value.null ∧
  (∀ d, r.getD "needs_review" d = Value.bool false) ∧
  (∀ d, r.getD "review_reason" d = Value.str "")

theorem preppedRow_prepRow (r : Row) : PreppedRow (prepRow r) :=
  ⟨getSlot_prepRow r, prepRow_method r,
    fun d => by simp [prepRow, getD_setCell],
    fun d => by simp [prepRow, getD_setCell]⟩

theorem preppedRow_setSortKey (r : Row) (v : Value) (h : PreppedRow r) :
    PreppedRow (r.setCell "_sort_key" v) := by
  obtain ⟨h1, h2, h3, h4⟩ := h
  refine ⟨?_, ?_, fun d => ?_, fun d => ?_⟩
  · rw [getSlot_setCell_ne _ _ _ (by decide)]; exact h1
  · rw [getD_setCell_ne _ _ _ _ _ (by decide)]; exact h2
  · rw [getD_setCell_ne _ _ _ _ _ (by decide)]; exact h3 d
  · rw [getD_setCell_ne _ _ _ _ _ (by decide)]; exact h4 d

theorem indexRows_mem_snd {rows : List Row} {p : Nat × Row} (hp : p ∈ indexRows rows) :
    p.2 ∈ rows := by
  obtain ⟨i, r⟩ := p
  exact (List.of_mem_zip hp).2

theorem skuInput_prepped (df : DF) :
    ∀ p ∈ indexRows (prepDF df).rows, PreppedRow p.2 := by
  intro p hp
  have h2 := indexRows_mem_snd hp
  rw [prepDF_rows] at h2
  rcases List.mem_map.mp h2 with ⟨r, _, heq⟩
  rw [← heq]
  exact preppedRow_prepRow r

theorem seqInput_prepped (df : DF) :
    ∀ p ∈ seqInputRows (prepDF df), PreppedRow p.2 := by
  intro p hp
  unfold seqInputRows at hp
  split at hp
  · have hp' := (sortRows_perm _).mem_iff.mp hp
    rcases List.mem_map.mp hp' with ⟨q, hq, heq⟩
    rw [← heq]
    exact preppedRow_setSortKey _ _ (skuInput_prepped df q hq)
  · exact skuInput_prepped df p hp

theorem skuInput_slot_none (df : DF) :
    ∀ p ∈ indexRows (prepDF df).rows, getSlot p.2 = none :=
  fun p hp => (skuInput_prepped df p hp).1

theorem seqInput_slot_none (df : DF) :
    ∀ p ∈ seqInputRows (prepDF df), getSlot p.2 = none :=
  fun p hp => (seqInput_prepped df p hp).1

theorem indexRows_fst (rows : List Row) :
    (indexRows rows).map Prod.fst = List.range rows.length :=
  List.map_fst_zip _ _ (by simp)

theorem seqInputRows_fst_nodup (df₁ : DF) :
    ((seqInputRows df₁).map Prod.fst).Nodup := by
  unfold seqInputRows
  split
  · refine (List.Perm.nodup_iff (List.Perm.map Prod.fst (sortRows_perm _))).mpr ?_
    rw [List.map_map]
    have : (Prod.fst ∘ fun p : Nat × Row =>
        (p.1, p.2.setCell "_sort_key" (to_datetime_coerce (p.2.getD "placed at" Value.null)))) =
        Prod.fst := by
      funext p
      rfl
    rw [this, indexRows_fst]
    exact List.nodup_range _
  · rw [indexRows_fst]
    exact List.nodup_range _

/-! ### Claim C1 -/

theorem dupPass_filterMap_getSlot (u : List (Int × List Nat)) (rows : List (Nat × Row))
    (d n : Nat) :
    ((dupPass u rows d n).1.map Prod.snd).filterMap getSlot =
      rows.filterMap fun p => getSlot p.2 := by
  rw [dupPass_rows_eq, List.map_map, List.filterMap_map]
  have hfun : (getSlot ∘ (Prod.snd ∘ fun p : Nat × Row =>
      (p.1, flagDupRow^[dupFlagCount u p.1] p.2))) = fun p : Nat × Row => getSlot p.2 := by
    funext p
    simp [Function.comp, getSlot_flagIter]
  rw [hfun]

/-- Claim C1: whenever a run uses the sequence strategy, the slot
numbers it assigns, read off the output rows in order (excluded rows
carry none), are exactly `start, start + 1, start + 2, …` — no repeats,
and no gaps from exclusions. -/
theorem c1_sequence_slots_contiguous (df : DF) (mode : String) (start : Int)
    (ex inc : List String) (out : DF) (s : Summary)
    (h : matchTable df mode start ex inc = Except.ok (out, s))
    (hm : s.mode_used = "sequence") :
    out.rows.filterMap getSlot =
      (List.range (out.rows.filterMap getSlot).length).map
        (fun j : Nat => start + (j : Int)) := by
  obtain ⟨hne, hvalid, hcore⟩ := matchTable_ok_inv h
  have hs : s = (matchCore df (resolvedMode df mode) start
      (ex.map pyStrip) (inc.map pyStrip)).2 := congrArg Prod.snd hcore
  have hout : out = (matchCore df (resolvedMode df mode) start
      (ex.map pyStrip) (inc.map pyStrip)).1 := congrArg Prod.fst hcore
  have hmode : resolvedMode df mode = "sequence" := by
    rw [hs, matchCore_mode_used] at hm
    exact hm
  have hmsku : resolvedMode df mode ≠ "sku" := by
    rw [hmode]
    decide
  have hstr := runStrategy_seq_snd (prepDF df) (resolvedMode df mode) start
    (ex.map pyStrip) (inc.map pyStrip) hmsku
  have heq : out.rows.filterMap getSlot =
      (List.range ((seqInputRows (prepDF df)).filter fun p =>
        passesFilter (ex.map pyStrip) (inc.map pyStrip) p.2).length).map
        (fun j : Nat => start + (j : Int)) := by
    rw [hout, matchCore_rows]
    rw [show (runStrategy (prepDF df) (resolvedMode df mode) start (ex.map pyStrip)
        (inc.map pyStrip)).2.2 = (seqPass (ex.map pyStrip) (inc.map pyStrip)
        (seqInputRows (prepDF df)) start {}).2 from congrArg Prod.snd hstr]
    rw [show (runStrategy (prepDF df) (resolvedMode df mode) start (ex.map pyStrip)
        (inc.map pyStrip)).2.1 = (seqPass (ex.map pyStrip) (inc.map pyStrip)
        (seqInputRows (prepDF df)) start {}).1 from congrArg Prod.fst hstr]
    rw [dupPass_filterMap_getSlot]
    exact seqPass_slots (ex.map pyStrip) (inc.map pyStrip) (seqInputRows (prepDF df))
      start {} (seqInput_slot_none df)
  rw [heq]
  simp [List.length_map, List.length_range]

/-- Scenario B of the specification: four rows, one excluded keyword hit. -/
def tblC1 : DF :=
  ⟨["product name"],
   [[("product name", Value.str "Item A")], [("product name", Value.str "Givy Item")],
    [("product name", Value.str "Item B")], [("product name", Value.str "Item C")]]⟩

def emptySummary : Summary := ⟨0, 0, 0, 0, 0, "", 0, [], []⟩

def runC1 : DF × Summary :=
  (matchTable tblC1 "sequence" 5 ["givy"] []).toOption.getD (⟨[], []⟩, emptySummary)

/-- Witness for C1 on a concrete sequence run starting at slot 5. -/
theorem c1_witness :
    matchTable tblC1 "sequence" 5 ["givy"] [] = Except.ok (runC1.1, runC1.2) ∧
    runC1.2.mode_used = "sequence" ∧
    runC1.1.rows.filterMap getSlot =
      (List.range (runC1.1.rows.filterMap getSlot).length).map
        (fun j : Nat => 5 + (j : Int)) :=
  ⟨rfl, rfl,
    c1_sequence_slots_contiguous tblC1 "sequence" 5 ["givy"] [] runC1.1 runC1.2 rfl rfl⟩

/-! ### Claim C2 -/

theorem strategy_usage_good (df : DF) (m : String) (start : Int) (ex inc : List String) :
    GoodUsage (runStrategy (prepDF df) m start ex inc).2.1
      (runStrategy (prepDF df) m start ex inc).2.2.slot_usage := by
  by_cases hm : m = "sku"
  · subst hm
    rw [runStrategy_sku]
    rw [skuPass_usage_eq ex inc _ {} (skuInput_slot_none df)]
    exact goodUsage_of_rows _
  · have h2 := runStrategy_seq_snd (prepDF df) m start ex inc hm
    rw [h2]
    rw [seqPass_usage_eq ex inc _ start {} (seqInput_slot_none df)]
    exact goodUsage_of_rows _

theorem dupPass_count_slot (u : List (Int × List Nat)) (rows : List (Nat × Row))
    (d n : Nat) (v : Int) :
    (((dupPass u rows d n).1.map Prod.snd).filter fun r' => getSlot r' == some v).length =
      (rows.filter fun p => getSlot p.2 == some v).length := by
  rw [dupPass_rows_eq, List.map_map]
  rw [← List.countP_eq_length_filter, ← List.countP_eq_length_filter, List.countP_map]
  congr 1
  funext p
  simp [Function.comp, getSlot_flagIter]

theorem dupPass_mem_snd {u : List (Int × List Nat)} {rows : List (Nat × Row)} {d n : Nat}
    {r : Row} (hr : r ∈ (dupPass u rows d n).1.map Prod.snd) :
    ∃ p ∈ rows, r = flagDupRow^[dupFlagCount u p.1] p.2 := by
  rw [dupPass_rows_eq, List.map_map] at hr
  rcases List.mem_map.mp hr with ⟨p, hp, heq⟩
  exact ⟨p, hp, heq.symm⟩

/-- Claim C2: after either strategy, every row holding a slot value that
more than one output row holds ends with `needs_review = true` and a
review reason containing `duplicate_slot`, and the summary's
`duplicate_slots` equals the number of distinct slot values assigned to
more than one row. -/
theorem c2_duplicate_detection (df : DF) (mode : String) (start : Int)
    (ex inc : List String) (out : DF) (s : Summary)
    (h : matchTable df mode start ex inc = Except.ok (out, s)) :
    (∀ r ∈ out.rows, ∀ v : Int, getSlot r = some v →
      1 < (out.rows.filter fun r' => getSlot r' == some v).length →
      r.getD "needs_review" Value.null = Value.bool true ∧
        ∃ pre post : String, r.getD "review_reason" Value.null =
          Value.str (pre ++ "duplicate_slot" ++ post)) ∧
    s.duplicate_slots =
      ((out.rows.filterMap getSlot).dedup.filter
        fun v => 1 < (out.rows.filter fun r' => getSlot r' == some v).length).length := by
  obtain ⟨hne, hvalid, hcore⟩ := matchTable_ok_inv h
  have hs : s = (matchCore df (resolvedMode df mode) start
      (ex.map pyStrip) (inc.map pyStrip)).2 := congrArg Prod.snd hcore
  have hout : out = (matchCore df (resolvedMode df mode) start
      (ex.map pyStrip) (inc.map pyStrip)).1 := congrArg Prod.fst hcore
  have hgood := strategy_usage_good df (resolvedMode df mode) start
    (ex.map pyStrip) (inc.map pyStrip)
  obtain ⟨hkeys, hent, hcov⟩ := hgood
  constructor
  · intro r hr v hv hcount
    rw [hout, matchCore_rows] at hr hcount
    rcases dupPass_mem_snd hr with ⟨p, hp, rfl⟩
    rw [getSlot_flagIter] at hv
    rw [dupPass_count_slot] at hcount
    have hbeq : (getSlot p.2 == some v) = true := by simp [hv]
    have hmemf : p ∈ (runStrategy (prepDF df) (resolvedMode df mode) start
        (ex.map pyStrip) (inc.map pyStrip)).2.1.filter
        fun q => getSlot q.2 == some v := List.mem_filter.mpr ⟨hp, hbeq⟩
    have hvk := hcov p hp v hv
    rcases List.mem_map.mp hvk with ⟨e, heu, hev⟩
    have he2 : e.2 = assignedIdxs (runStrategy (prepDF df) (resolvedMode df mode) start
        (ex.map pyStrip) (inc.map pyStrip)).2.1 v := by
      rw [hent e heu, hev]
    have hlen : e.2.length > 1 := by
      rw [he2, length_assignedIdxs]
      exact hcount
    have hetup : (v, e.2) ∈ (runStrategy (prepDF df) (resolvedMode df mode) start
        (ex.map pyStrip) (inc.map pyStrip)).2.2.slot_usage := by
      rw [← hev]
      simpa using heu
    have hi : p.1 ∈ e.2 := by
      rw [he2]
      exact List.mem_map_of_mem Prod.fst hmemf
    have hpos := dupFlagCount_pos _ v e.2 p.1 hetup hlen hi
    obtain ⟨hneeds, pre, hreason⟩ := flagIter_flags _ hpos p.2
    refine ⟨hneeds, pre, "", ?_⟩
    rw [String.append_empty]
    exact hreason
  · rw [hs, matchCore_duplicate_slots, dupPass_dup_eq, Nat.zero_add]
    rw [hout, matchCore_rows, dupPass_filterMap_getSlot]
    have hfun : (fun v : Int => decide (1 <
        (((dupPass (runStrategy (prepDF df) (resolvedMode df mode) start (ex.map pyStrip)
            (inc.map pyStrip)).2.2.slot_usage
          (runStrategy (prepDF df) (resolvedMode df mode) start (ex.map pyStrip)
            (inc.map pyStrip)).2.1 0
          (runStrategy (prepDF df) (resolvedMode df mode) start (ex.map pyStrip)
            (inc.map pyStrip)).2.2.needs_review_count).1.map Prod.snd).filter
          fun r' => getSlot r' == some v).length)) =
        (fun v : Int => decide (1 <
          ((runStrategy (prepDF df) (resolvedMode df mode) start (ex.map pyStrip)
            (inc.map pyStrip)).2.1.filter fun p => getSlot p.2 == some v).length)) := by
      funext v
      rw [dupPass_count_slot]
    rw [hfun]
    exact goodUsage_dupCount _ _ ⟨hkeys, hent, hcov⟩

/-- Scenario C of the specification: two rows with identifier `ITEM-5`. -/
def tblC2 : DF :=
  ⟨["product name", "sku"],
   [[("product name", Value.str "Item A"), ("sku", Value.str "ITEM-5")],
    [("product name", Value.str "Item B"), ("sku", Value.str "ITEM-5")]]⟩

def runC2 : DF × Summary :=
  (matchTable tblC2 "sku" 1 [] []).toOption.getD (⟨[], []⟩, emptySummary)

/-- Witness for C2 on a concrete run with a duplicated SKU slot. -/
theorem c2_witness :
    matchTable tblC2 "sku" 1 [] [] = Except.ok (runC2.1, runC2.2) ∧
    runC2.2.duplicate_slots = 1 ∧
    (runC2.1.rows.map fun r => r.getD "needs_review" Value.null) =
      [Value.bool true, Value.bool true] ∧
    ((∀ r ∈ runC2.1.rows, ∀ v : Int, getSlot r = some v →
      1 < (runC2.1.rows.filter fun r' => getSlot r' == some v).length →
      r.getD "needs_review" Value.null = Value.bool true ∧
        ∃ pre post : String, r.getD "review_reason" Value.null =
          Value.str (pre ++ "duplicate_slot" ++ post)) ∧
    runC2.2.duplicate_slots =
      ((runC2.1.rows.filterMap getSlot).dedup.filter
        fun v => 1 < (runC2.1.rows.filter fun r' => getSlot r' == some v).length).length) :=
  ⟨rfl, rfl, rfl, c2_duplicate_detection tblC2 "sku" 1 [] [] runC2.1 runC2.2 rfl⟩

/-! ### Row shapes shared by claims C5, C6, C7 -/

/-- The excluded-row annotation (matcher.py:195/201/242/248). -/
def exclForm (r : Row) : Row := r.setCell "match_method" (Value.str "excluded")

/-- The manual-review annotation of the SKU branch (matcher.py:210-212). -/
def manualForm (r : Row) : Row :=
  ((r.setCell "match_method" (Value.str "manual_review")).setCell
    "needs_review" (Value.bool true)).setCell
    "review_reason" (Value.str "sku_missing_or_invalid")

/-- The assigned-row annotation of the SKU branch (matcher.py:215-217). -/
def skuAssignForm (r : Row) (n : Nat) : Row :=
  ((r.setCell "slot" (Value.int n)).setCell
    "matched_item_label" (Value.str ("Item #" ++ toString n))).setCell
    "match_method" (Value.str "sku")

theorem annotateSkuRow_cases (ex inc : List String) (r₀ : Row) :
    (annotateSkuRow ex inc r₀ = exclForm r₀ ∧
      ¬(should_exclude_row r₀ ex = false ∧ should_include_row r₀ inc = true)) ∨
    (annotateSkuRow ex inc r₀ = manualForm r₀ ∧
      should_exclude_row r₀ ex = false ∧ should_include_row r₀ inc = true ∧
      parse_sku_to_slot (r₀.getD "sku" Value.null) = none) ∨
    (∃ nn : Nat, annotateSkuRow ex inc r₀ = skuAssignForm r₀ nn ∧
      should_exclude_row r₀ ex = false ∧ should_include_row r₀ inc = true ∧
      parse_sku_to_slot (r₀.getD "sku" Value.null) = some nn) := by
  unfold annotateSkuRow exclForm manualForm skuAssignForm
  by_cases h1 : should_exclude_row r₀ ex
  · exact Or.inl ⟨by simp [h1], by simp [h1]⟩
  · by_cases h2 : should_include_row r₀ inc
    · cases hp : parse_sku_to_slot (r₀.getD "sku" Value.null) with
      | none =>
        refine Or.inr (Or.inl ⟨?_, by simpa using h1, h2, rfl⟩)
        simp [h1, h2, hp]
      | some nn =>
        refine Or.inr (Or.inr ⟨nn, ?_, by simpa using h1, h2, rfl⟩)
        simp [h1, h2, hp]
    · exact Or.inl ⟨by simp [h1, h2], by simp [h2]⟩

theorem pname_exclForm (r : Row) (d : Value) :
    (exclForm r).getD "product name" d = r.getD "product name" d := by
  simp [exclForm, getD_setCell]

theorem pname_manualForm (r : Row) (d : Value) :
    (manualForm r).getD "product name" d = r.getD "product name" d := by
  simp [manualForm, getD_setCell]

theorem pname_skuAssignForm (r : Row) (n : Nat) (d : Value) :
    (skuAssignForm r n).getD "product name" d = r.getD "product name" d := by
  simp [skuAssignForm, getD_setCell]

theorem pname_seqAssignRow (r : Row) (sl : Int) (d : Value) :
    (seqAssignRow r sl).getD "product name" d = r.getD "product name" d := by
  simp [seqAssignRow, getD_setCell]

theorem sku_exclForm (r : Row) (d : Value) :
    (exclForm r).getD "sku" d = r.getD "sku" d := by
  simp [exclForm, getD_setCell]

theorem sku_manualForm (r : Row) (d : Value) :
    (manualForm r).getD "sku" d = r.getD "sku" d := by
  simp [manualForm, getD_setCell]

theorem sku_skuAssignForm (r : Row) (n : Nat) (d : Value) :
    (skuAssignForm r n).getD "sku" d = r.getD "sku" d := by
  simp [skuAssignForm, getD_setCell]

theorem method_exclForm (r : Row) (d : Value) :
    (exclForm r).getD "match_method" d = Value.str "excluded" := by
  simp [exclForm, getD_setCell]

theorem method_manualForm (r : Row) (d : Value) :
    (manualForm r).getD "match_method" d = Value.str "manual_review" := by
  simp [manualForm, getD_setCell]

theorem method_skuAssignForm (r : Row) (n : Nat) (d : Value) :
    (skuAssignForm r n).getD "match_method" d = Value.str "sku" := by
  simp [skuAssignForm, getD_setCell]

theorem method_seqAssignRow (r : Row) (sl : Int) (d : Value) :
    (seqAssignRow r sl).getD "match_method" d = Value.str "sequence" := by
  simp [seqAssignRow, getD_setCell]

theorem getSlot_exclForm (r : Row) : getSlot (exclForm r) = getSlot r :=
  getSlot_setCell_method r _

theorem getSlot_manualForm (r : Row) : getSlot (manualForm r) = getSlot r := by
  unfold manualForm
  rw [getSlot_setCell_ne _ _ _ (by decide), getSlot_setCell_ne _ _ _ (by decide),
    getSlot_setCell_method]

theorem getSlot_skuAssignForm (r : Row) (n : Nat) :
    getSlot (skuAssignForm r n) = some (Int.ofNat n) := by
  unfold skuAssignForm
  rw [getSlot_setCell_method, getSlot_setCell_ne _ _ _ (by decide)]
  simp [getSlot, getD_setCell]

theorem needs_manualForm (r : Row) (d : Value) :
    (manualForm r).getD "needs_review" d = Value.bool true := by
  simp [manualForm, getD_setCell]

theorem reason_manualForm (r : Row) (d : Value) :
    (manualForm r).getD "review_reason" d = Value.str "sku_missing_or_invalid" := by
  simp [manualForm, getD_setCell]

theorem rows1_fst_nodup (df : DF) (m : String) (start : Int) (ex inc : List String) :
    ((runStrategy (prepDF df) m start ex inc).2.1.map Prod.fst).Nodup := by
  by_cases hm : m = "sku"
  · subst hm
    rw [runStrategy_sku]
    show ((skuPass ex inc (indexRows (prepDF df).rows) {}).1.map Prod.fst).Nodup
    rw [skuPass_fst, indexRows_fst]
    exact List.nodup_range _
  · rw [runStrategy_seq_snd _ _ _ _ _ hm]
    show ((seqPass ex inc (seqInputRows (prepDF df)) start {}).1.map Prod.fst).Nodup
    rw [seqPass_fst]
    exact seqInputRows_fst_nodup _

/-- A row that got no slot is never touched by the duplicate pass
(its index is in no usage entry, as entries list only slotted rows). -/
theorem slotless_not_flagged {rows1 : List (Nat × Row)} {u : List (Int × List Nat)}
    (hgood : GoodUsage rows1 u) (hnd : (rows1.map Prod.fst).Nodup)
    {p : Nat × Row} (hp : p ∈ rows1) (hslot : getSlot p.2 = none) :
    dupFlagCount u p.1 = 0 := by
  obtain ⟨hkeys, hent, hcov⟩ := hgood
  apply dupFlagCount_eq_zero
  intro e heu hbig hmem
  rw [hent e heu] at hmem
  rcases List.mem_map.mp hmem with ⟨q, hqf, hq1⟩
  rcases List.mem_filter.mp hqf with ⟨hqrows, hqslot⟩
  have hqp : q = p := List.inj_on_of_nodup_map hnd hqrows hp hq1
  rw [hqp, hslot] at hqslot
  simp at hqslot

theorem out_row_shape {df : DF} {mode : String} {start : Int} {ex inc : List String}
    {out : DF} {s : Summary}
    (h : matchTable df mode start ex inc = Except.ok (out, s)) :
    ∀ r ∈ out.rows, ∃ p ∈ (runStrategy (prepDF df) (resolvedMode df mode) start
        (ex.map pyStrip) (inc.map pyStrip)).2.1,
      r = flagDupRow^[dupFlagCount (runStrategy (prepDF df) (resolvedMode df mode) start
        (ex.map pyStrip) (inc.map pyStrip)).2.2.slot_usage p.1] p.2 := by
  intro r hr
  obtain ⟨-, -, hcore⟩ := matchTable_ok_inv h
  have hout : out = (matchCore df (resolvedMode df mode) start
      (ex.map pyStrip) (inc.map pyStrip)).1 := congrArg Prod.fst hcore
  rw [hout, matchCore_rows] at hr
  exact dupPass_mem_snd hr

/-- Every row leaving a strategy pass has one of three shapes: excluded,
manual review (SKU branch only), or slot-assigned. -/
theorem rows1_shape (df : DF) (m : String) (start : Int) (ex inc : List String) :
    ∀ p ∈ (runStrategy (prepDF df) m start ex inc).2.1,
      ∃ r₀ : Row, PreppedRow r₀ ∧
        ((p.2 = exclForm r₀ ∧
           ¬(should_exclude_row r₀ ex = false ∧ should_include_row r₀ inc = true)) ∨
         (m = "sku" ∧ p.2 = manualForm r₀ ∧
           should_exclude_row r₀ ex = false ∧ should_include_row r₀ inc = true ∧
           parse_sku_to_slot (r₀.getD "sku" Value.null) = none) ∨
         ((should_exclude_row r₀ ex = false ∧ should_include_row r₀ inc = true) ∧
           ((m = "sku" ∧ ∃ nn : Nat,
              parse_sku_to_slot (r₀.getD "sku" Value.null) = some nn ∧
              p.2 = skuAssignForm r₀ nn) ∨
            (m ≠ "sku" ∧ ∃ sl : Int, p.2 = seqAssignRow r₀ sl)))) := by
  intro p hp
  by_cases hm : m = "sku"
  · subst hm
    rw [runStrategy_sku] at hp
    have hp' : p ∈ (skuPass ex inc (indexRows (prepDF df).rows) {}).1 := hp
    rw [skuPass_rows_eq] at hp'
    rcases List.mem_map.mp hp' with ⟨q, hq, rfl⟩
    refine ⟨q.2, skuInput_prepped df q hq, ?_⟩
    rcases annotateSkuRow_cases ex inc q.2 with ⟨heq, hc⟩ | ⟨heq, h1, h2, h3⟩ |
      ⟨nn, heq, h1, h2, h3⟩
    · exact Or.inl ⟨heq, hc⟩
    · exact Or.inr (Or.inl ⟨rfl, heq, h1, h2, h3⟩)
    · exact Or.inr (Or.inr ⟨⟨h1, h2⟩, Or.inl ⟨rfl, nn, h3, heq⟩⟩)
  · rw [runStrategy_seq_snd _ _ _ _ _ hm] at hp
    rcases seqPass_mem ex inc (seqInputRows (prepDF df)) start {} p hp with
      ⟨q, hq, hfst, hcase⟩
    refine ⟨q.2, seqInput_prepped df q hq, ?_⟩
    rcases hcase with ⟨heq, hc⟩ | ⟨⟨h1, h2⟩, sl, heq⟩
    · exact Or.inl ⟨heq, hc⟩
    · exact Or.inr (Or.inr ⟨⟨h1, h2⟩, Or.inr ⟨hm, sl, heq⟩⟩)

/-! ### Claim C6 -/

/-- Claim C6: in every annotated table a successful run produces, a row
carries a slot exactly when its `match_method` is `sku` or `sequence`;
excluded and manual-review rows never carry one, and the duplicate pass
neither adds nor removes slots. -/
theorem c6_slot_iff_method (df : DF) (mode : String) (start : Int) (ex inc : List String)
    (out : DF) (s : Summary)
    (h : matchTable df mode start ex inc = Except.ok (out, s)) :
    ∀ r ∈ out.rows,
      ((getSlot r).isSome = true ↔
        (r.getD "match_method" Value.null = Value.str "sku" ∨
          r.getD "match_method" Value.null = Value.str "sequence")) := by
  intro r hr
  rcases out_row_shape h r hr with ⟨p, hp, rfl⟩
  rcases rows1_shape df _ start _ _ p hp with ⟨r₀, hprep, hcase⟩
  rw [getSlot_flagIter, getD_flagIter_ne _ _ _ _ (by decide) (by decide)]
  rcases hcase with ⟨heq, -⟩ | ⟨-, heq, -⟩ | ⟨-, ⟨-, nn, -, heq⟩ | ⟨-, sl, heq⟩⟩
  · rw [heq, getSlot_exclForm, method_exclForm, hprep.1]
    simp
  · rw [heq, getSlot_manualForm, method_manualForm, hprep.1]
    simp
  · rw [heq, getSlot_skuAssignForm, method_skuAssignForm]
    simp
  · rw [heq, getSlot_seqAssignRow, method_seqAssignRow]
    simp

def rowC6 : Row := runC2.1.rows.headD []

/-- Witness for C6 at the first row of the duplicate-SKU run. -/
theorem c6_witness :
    matchTable tblC2 "sku" 1 [] [] = Except.ok (runC2.1, runC2.2) ∧
    rowC6 ∈ runC2.1.rows ∧
    ((getSlot rowC6).isSome = true ↔
      (rowC6.getD "match_method" Value.null = Value.str "sku" ∨
        rowC6.getD "match_method" Value.null = Value.str "sequence")) :=
  ⟨rfl, by decide,
    c6_slot_iff_method tblC2 "sku" 1 [] [] runC2.1 runC2.2 rfl rowC6 (by decide)⟩

/-! ### Claim C5 -/

/-- Claim C5: keyword filtering is case-insensitive substring matching
on the row's `product name` field (missing field read as the empty
string), and in every successful run a row whose text field contains an
exclude keyword ends with `match_method = excluded` and no slot,
regardless of its identifier. -/
theorem c5_exclusion_semantics :
    (∀ (row : Row) (ex : List String),
      should_exclude_row row ex = true ↔
        ∃ k ∈ ex, ∃ pfx sfx : String,
          pyLower (pyStr (row.getD "product name" (Value.str ""))) =
            pfx ++ pyLower k ++ sfx) ∧
    (∀ (row : Row) (inc : List String),
      should_include_row row inc = true ↔
        (inc = [] ∨ ∃ k ∈ inc, ∃ pfx sfx : String,
          pyLower (pyStr (row.getD "product name" (Value.str ""))) =
            pfx ++ pyLower k ++ sfx)) ∧
    (∀ (df : DF) (mode : String) (start : Int) (ex inc : List String) (out : DF)
        (s : Summary),
      matchTable df mode start ex inc = Except.ok (out, s) →
      ∀ r ∈ out.rows, should_exclude_row r (ex.map pyStrip) = true →
        r.getD "match_method" Value.null = Value.str "excluded" ∧ getSlot r = none) := by
  refine ⟨fun row ex => should_exclude_row_iff row ex,
    fun row inc => should_include_row_iff row inc, ?_⟩
  intro df mode start ex inc out s h r hr hex
  rcases out_row_shape h r hr with ⟨p, hp, rfl⟩
  rcases rows1_shape df _ start _ _ p hp with ⟨r₀, hprep, hcase⟩
  rcases hcase with ⟨heq, -⟩ | ⟨-, heq, h1, -⟩ | ⟨⟨h1, -⟩, hassign⟩
  · constructor
    · rw [getD_flagIter_ne _ _ _ _ (by decide) (by decide), heq, method_exclForm]
    · rw [getSlot_flagIter, heq, getSlot_exclForm, hprep.1]
  · have hpn : ∀ k : Nat, (flagDupRow^[k] p.2).getD "product name" (Value.str "") =
        r₀.getD "product name" (Value.str "") := fun k => by
      rw [getD_flagIter_ne _ _ _ _ (by decide) (by decide), heq, pname_manualForm]
    rw [should_exclude_congr _ _ _ (hpn _), h1] at hex
    exact absurd hex (by simp)
  · rcases hassign with ⟨-, nn, -, heq⟩ | ⟨-, sl, heq⟩
    · have hpn : ∀ k : Nat, (flagDupRow^[k] p.2).getD "product name" (Value.str "") =
          r₀.getD "product name" (Value.str "") := fun k => by
        rw [getD_flagIter_ne _ _ _ _ (by decide) (by decide), heq, pname_skuAssignForm]
      rw [should_exclude_congr _ _ _ (hpn _), h1] at hex
      exact absurd hex (by simp)
    · have hpn : ∀ k : Nat, (flagDupRow^[k] p.2).getD "product name" (Value.str "") =
          r₀.getD "product name" (Value.str "") := fun k => by
        rw [getD_flagIter_ne _ _ _ _ (by decide) (by decide), heq, pname_seqAssignRow]
      rw [should_exclude_congr _ _ _ (hpn _), h1] at hex
      exact absurd hex (by simp)

def tblC5 : DF :=
  ⟨["product name", "sku"],
   [[("product name", Value.str "Free Givy Item"), ("sku", Value.str "ITEM-9")],
    [("product name", Value.str "Card"), ("sku", Value.str "ITEM-2")]]⟩

def runC5 : DF × Summary :=
  (matchTable tblC5 "sku" 1 ["givy"] []).toOption.getD (⟨[], []⟩, emptySummary)

def rowC5 : Row := runC5.1.rows.headD []

/-- Witness for C5: a run where the excluded row has a valid identifier. -/
theorem c5_witness :
    (should_exclude_row rowC5 ["givy"] = true ↔
      ∃ k ∈ ["givy"], ∃ pfx sfx : String,
        pyLower (pyStr (rowC5.getD "product name" (Value.str ""))) =
          pfx ++ pyLower k ++ sfx) ∧
    matchTable tblC5 "sku" 1 ["givy"] [] = Except.ok (runC5.1, runC5.2) ∧
    rowC5 ∈ runC5.1.rows ∧
    should_exclude_row rowC5 (["givy"].map pyStrip) = true ∧
    (parse_sku_to_slot (rowC5.getD "sku" Value.null)).isSome = true ∧
    (rowC5.getD "match_method" Value.null = Value.str "excluded" ∧ getSlot rowC5 = none) :=
  ⟨c5_exclusion_semantics.1 rowC5 ["givy"], rfl, by decide, rfl, rfl,
    c5_exclusion_semantics.2.2 tblC5 "sku" 1 ["givy"] [] runC5.1 runC5.2 rfl rowC5
      (by decide) rfl⟩

/-! ### Claim C7 -/

/-- Claim C7 (amended): in a SKU-strategy run, a row that passes the
filters but whose identifier fails to parse ends with
`match_method = manual_review`, `needs_review = true`, review reason
`sku_missing_or_invalid` (the code's name for the spec's
`identifier_missing_or_invalid`), and no slot. -/
theorem c7_manual_review (df : DF) (mode : String) (start : Int) (ex inc : List String)
    (out : DF) (s : Summary)
    (h : matchTable df mode start ex inc = Except.ok (out, s))
    (hm : s.mode_used = "sku") :
    ∀ r ∈ out.rows,
      should_exclude_row r (ex.map pyStrip) = false →
      should_include_row r (inc.map pyStrip) = true →
      parse_sku_to_slot (r.getD "sku" Value.null) = none →
      r.getD "match_method" Value.null = Value.str "manual_review" ∧
        r.getD "needs_review" Value.null = Value.bool true ∧
        r.getD "review_reason" Value.null = Value.str "sku_missing_or_invalid" ∧
        getSlot r = none := by
  obtain ⟨-, -, hcore⟩ := matchTable_ok_inv h
  have hs : s = (matchCore df (resolvedMode df mode) start
      (ex.map pyStrip) (inc.map pyStrip)).2 := congrArg Prod.snd hcore
  have hmode : resolvedMode df mode = "sku" := by
    rw [hs, matchCore_mode_used] at hm
    exact hm
  intro r hr hexc hinc hparse
  rcases out_row_shape h r hr with ⟨p, hp, rfl⟩
  rcases rows1_shape df _ start _ _ p hp with ⟨r₀, hprep, hcase⟩
  rcases hcase with ⟨heq, hc⟩ | ⟨-, heq, h1, h2, h3⟩ | ⟨⟨h1, h2⟩, hassign⟩
  · -- an excluded row contradicts the filter hypotheses
    have hpn : ∀ k : Nat, (flagDupRow^[k] p.2).getD "product name" (Value.str "") =
        r₀.getD "product name" (Value.str "") := fun k => by
      rw [getD_flagIter_ne _ _ _ _ (by decide) (by decide), heq, pname_exclForm]
    rw [should_exclude_congr _ _ _ (hpn _)] at hexc
    rw [should_include_congr _ _ _ (hpn _)] at hinc
    exact absurd ⟨hexc, hinc⟩ hc
  · -- the manual-review row: untouched by the duplicate pass
    have hslotp : getSlot p.2 = none := by
      rw [heq, getSlot_manualForm, hprep.1]
    have hzero : dupFlagCount (runStrategy (prepDF df) (resolvedMode df mode) start
        (ex.map pyStrip) (inc.map pyStrip)).2.2.slot_usage p.1 = 0 :=
      slotless_not_flagged
        (strategy_usage_good df (resolvedMode df mode) start (ex.map pyStrip)
          (inc.map pyStrip))
        (rows1_fst_nodup df (resolvedMode df mode) start (ex.map pyStrip) (inc.map pyStrip))
        hp hslotp
    rw [hzero, Function.iterate_zero_apply, heq]
    exact ⟨method_manualForm r₀ _, needs_manualForm r₀ _, reason_manualForm r₀ _,
      by rw [getSlot_manualForm, hprep.1]⟩
  · -- an assigned row contradicts the failed-parse hypothesis
    rcases hassign with ⟨-, nn, hps, heq⟩ | ⟨hnsku, -⟩
    · have hsku : ∀ k : Nat, (flagDupRow^[k] p.2).getD "sku" Value.null =
          r₀.getD "sku" Value.null := fun k => by
        rw [getD_flagIter_ne _ _ _ _ (by decide) (by decide), heq, sku_skuAssignForm]
      rw [hsku _, hps] at hparse
      exact absurd hparse (by simp)
    · exact absurd hmode hnsku

def tblC7 : DF :=
  ⟨["product name", "sku"],
   [[("product name", Value.str "Item A"), ("sku", Value.str "")],
    [("product name", Value.str "Item B"), ("sku", Value.str "ITEM-2")]]⟩

def runC7 : DF × Summary :=
  (matchTable tblC7 "sku" 1 [] []).toOption.getD (⟨[], []⟩, emptySummary)

def rowC7 : Row := runC7.1.rows.headD []

/-- Claim C7, counterexample to the stated reason code: the code writes
`sku_missing_or_invalid`, not the `identifier_missing_or_invalid` the
claim names. -/
theorem c7_reason_counterexample :
    rowC7.getD "match_method" Value.null = Value.str "manual_review" ∧
    rowC7.getD "review_reason" Value.null = Value.str "sku_missing_or_invalid" ∧
    Value.str "sku_missing_or_invalid" ≠ Value.str "identifier_missing_or_invalid" :=
  ⟨rfl, rfl, by decide⟩

/-- Witness for C7's amended theorem at a row with an empty identifier. -/
theorem c7_witness :
    matchTable tblC7 "sku" 1 [] [] = Except.ok (runC7.1, runC7.2) ∧
    runC7.2.mode_used = "sku" ∧
    rowC7 ∈ runC7.1.rows ∧
    should_exclude_row rowC7 ([].map pyStrip) = false ∧
    should_include_row rowC7 ([].map pyStrip) = true ∧
    parse_sku_to_slot (rowC7.getD "sku" Value.null) = none ∧
    (rowC7.getD "match_method" Value.null = Value.str "manual_review" ∧
      rowC7.getD "needs_review" Value.null = Value.bool true ∧
      rowC7.getD "review_reason" Value.null = Value.str "sku_missing_or_invalid" ∧
      getSlot rowC7 = none) :=
  ⟨rfl, rfl, by decide, rfl, rfl, rfl,
    c7_manual_review tblC7 "sku" 1 [] [] runC7.1 runC7.2 rfl rfl rowC7 (by decide)
      rfl rfl rfl⟩

/-! ### Claim C8 -/

/-- Claim C8 (amended): the engine rejects an empty table and an
unrecognized mode before any row processing, producing no table or
summary (the error is the whole result).  A non-positive start slot,
however, is never rejected by the engine itself; only the web endpoints
stop it before invoking the engine, and even there the rejection
surfaces as an HTTP 500 `"Internal error: 400: start_slot must be >= 1"`
response, because the `HTTPException(400)` raised inside the `try` block
is re-wrapped by the blanket exception handler (main.py:94-95). -/
theorem c8_input_validation :
    (∀ (df : DF) (mode : String) (start : Int) (ex inc : List String),
      df.rows = [] →
      matchTable df mode start ex inc = Except.error "DataFrame is empty") ∧
    (∀ (df : DF) (mode : String) (start : Int) (ex inc : List String),
      df.rows ≠ [] → mode ≠ "auto" → mode ≠ "sku" → mode ≠ "sequence" →
      matchTable df mode start ex inc =
        Except.error ("Invalid mode: " ++ mode ++ ". Must be 'auto', 'sku', or 'sequence'")) ∧
    (∀ (df : DF) (mode : String) (start : Int) (ex inc : String),
      (mode = "auto" ∨ mode = "sku" ∨ mode = "sequence") → start < 1 →
      match_endpoint df mode start ex inc =
        Except.error (500, "Internal error: 400: start_slot must be >= 1")) := by
  refine ⟨?_, ?_, ?_⟩
  · intro df mode start ex inc hne
    simp [matchTable, hne]
  · intro df mode start ex inc hne hm1 hm2 hm3
    have h1 : ¬(df.rows.isEmpty = true) := by
      simpa [List.isEmpty_iff] using hne
    have hauto : (mode == "auto") = false := beq_eq_false_iff_ne.mpr hm1
    simp only [matchTable, hauto, Bool.false_eq_true, if_false]
    rw [if_neg h1, if_neg (by simp [hm2, hm3])]
  · intro df mode start ex inc hv hs
    unfold match_endpoint
    rw [if_neg (not_not.mpr hv), if_pos hs]

def tblC8 : DF := ⟨["product name"], [[("product name", Value.str "Item A")]]⟩

def runC8 : DF × Summary :=
  (matchTable tblC8 "sequence" 0 [] []).toOption.getD (⟨[], []⟩, emptySummary)

/-- Claim C8, counterexample to the claim as stated: the engine entry
point accepts the non-positive start slot `0` — the run succeeds and
even assigns slot `0`. -/
theorem c8_engine_accepts_nonpositive_start :
    (matchTable tblC8 "sequence" 0 [] []).toOption.isSome = true ∧
    runC8.1.rows.filterMap getSlot = [0] :=
  ⟨rfl, rfl⟩

def tblC8e : DF := ⟨["product name"], []⟩

/-- Witness for C8's amended theorem: empty-table rejection and the
HTTP-layer start-slot rejection at concrete inputs. -/
theorem c8_witness :
    tblC8e.rows = [] ∧
    matchTable tblC8e "auto" 1 [] [] = Except.error "DataFrame is empty" ∧
    (("sequence" : String) = "auto" ∨ ("sequence" : String) = "sku" ∨
      ("sequence" : String) = "sequence") ∧
    ((0 : Int) < 1) ∧
    match_endpoint tblC8 "sequence" 0 "" "" =
      Except.error (500, "Internal error: 400: start_slot must be >= 1") :=
  ⟨rfl, c8_input_validation.1 tblC8e "auto" 1 [] [] rfl, by simp, by decide,
    c8_input_validation.2.2 tblC8 "sequence" 0 "" "" (by simp) (by decide)⟩

/-! ### Claim C9 -/

def tblC9 : DF :=
  ⟨["product name", "placed at"],
   [[("product name", Value.str "Item A"), ("placed at", Value.str "2024-01-01 10:00")]]⟩

def runC9 : DF × Summary :=
  (matchTable tblC9 "sequence" 1 [] []).toOption.getD (⟨[], []⟩, emptySummary)

/-- Claim C9, failing input: a sequence-mode run over a table with a
`placed at` column leaves the internal `_sort_key` helper column in the
annotated table, after the five annotation columns, and `export_csv`
serializes it too — the columns are not "original plus exactly the five
annotation columns". -/
theorem c9_sort_key_column_leaks :
    (matchTable tblC9 "sequence" 1 [] []).toOption.map (fun pr => pr.1.columns) =
      some ["product name", "placed at", "slot", "matched_item_label", "match_method",
        "needs_review", "review_reason", "_sort_key"] ∧
    export_csv runC9.1 =
      "product name,placed at,slot,matched_item_label,match_method,needs_review," ++
        "review_reason,_sort_key\nItem A,2024-01-01 10:00,1,Item #1,sequence,False,," ++
        "202401011000" :=
  ⟨rfl, rfl⟩

/-! ### Claim C10 -/

/-- Claim C10: the engine never mutates the caller's table.  In the
heap model, every table present before the call — the input at `ref` in
particular — is unchanged after it, whether the call returns or raises;
all annotation happens on the fresh copy appended to the store. -/
theorem c10_no_input_mutation (store : List DF) (ref : Nat) (mode : String) (start : Int)
    (ex inc : List String) :
    ∀ j : Nat, j < store.length →
      ((matchProg store ref mode start ex inc).1)[j]? = store[j]? := by
  intro j hj
  unfold matchProg
  cases hsr : store.get? ref with
  | none => rfl
  | some df =>
    dsimp only
    cases hmt : matchTable df mode start ex inc with
    | error e => rfl
    | ok pr =>
      obtain ⟨df', s⟩ := pr
      exact List.getElem?_append_left hj

/-- Witness for C10 at a one-table store. -/
theorem c10_witness :
    (0 : Nat) < [tblC8].length ∧
    ((matchProg [tblC8] 0 "sequence" 1 [] []).1)[0]? = [tblC8][0]? :=
  ⟨by decide, c10_no_input_mutation [tblC8] 0 "sequence" 1 [] [] 0 (by decide)⟩

end Whatnot
